import Mathlib

/-!
Verification development for the fantasy-football analytics backend
(`fantasy-xi-wizard`): a shallow embedding, in Lean 4, of its data
synchronization subsystem (`app/services/data_sync_service.py`), its
fixture-difficulty analyzer (`app/services/fixture_service.py`) and the
deterministic scoring / squad-building / transfer-recommendation
algorithms (`app/services/ai_service.py`), together with theorems about
the embedded definitions.

Modelling conventions:
* Python floats are modelled as exact rationals (`ℚ`); the properties at
  stake are comparisons, orderings and accounting identities of the
  algorithms, not float rounding error.  Python's `round(x, n)`
  (round-half-to-even) is modelled exactly by `round1` / `round2` below.
* SQLAlchemy stores are modelled as Lean lists of records; a query
  `filter(...).first()` is `List.find?`, an in-place update of the found
  row is `updateFirst`, and `db.add` appends (the session's autoflush
  makes rows added earlier in the same batch visible to later queries,
  which the sequential fold reproduces).
* Python's stable `list.sort(key=k, reverse=True)` is modelled by the
  stable insertion sort `sortByDesc` (stable sorting by a key is
  extensionally unique, so this computes the same list as timsort);
  likewise `sortByAsc` for ascending order.
* `datetime.now()` is passed in as an explicit `now` parameter.
* Bookkeeping columns (`created_at`, `updated_at`, `season`,
  `news_added`) are not modelled.
-/

namespace FantasyXI

/-! ## List utilities -/

/-- Update the first element satisfying `p` by `f`, leave the rest alone.
This is the effect of SQLAlchemy `query.filter(...).first()` followed by
attribute assignments on the returned row. -/
def updateFirst (p : α → Bool) (f : α → α) : List α → List α
  | [] => []
  | a :: as => if p a then f a :: as else a :: updateFirst p f as

/-- Stable insertion (descending by key `k`): `a` is placed before the first
element whose key is not larger than `a`'s, so elements with equal keys keep
their original relative order. -/
def insertByDesc [LinearOrder β] (k : α → β) (a : α) : List α → List α
  | [] => [a]
  | b :: bs => if k a < k b then b :: insertByDesc k a bs else a :: b :: bs

/-- Stable sort, descending by key `k`: models Python's
`list.sort(key=k, reverse=True)`. -/
def sortByDesc [LinearOrder β] (k : α → β) : List α → List α
  | [] => []
  | a :: as => insertByDesc k a (sortByDesc k as)

/-- Stable insertion (ascending by key `k`). -/
def insertByAsc [LinearOrder β] (k : α → β) (a : α) : List α → List α
  | [] => [a]
  | b :: bs => if k b < k a then b :: insertByAsc k a bs else a :: b :: bs

/-- Stable sort, ascending by key `k`: models Python's
`sorted(xs, key=k)` / SQL `ORDER BY k ASC`. -/
def sortByAsc [LinearOrder β] (k : α → β) : List α → List α
  | [] => []
  | a :: as => insertByAsc k a (sortByAsc k as)

/-- First element with minimal key among `a :: as`: models Python's
`min(xs, key=k)`, which returns the first occurrence of the minimum. -/
def minByFirst [LinearOrder β] (k : α → β) (a : α) : List α → α
  | [] => a
  | b :: bs => if k b < k a then minByFirst k b bs else minByFirst k a bs

/-- Python's `round` to an integer: round half to even. -/
def roundHalfEven (q : ℚ) : ℤ :=
  let f : ℤ := ⌊q⌋
  let r : ℚ := q - f
  if r < 1/2 then f
  else if 1/2 < r then f + 1
  else if f % 2 = 0 then f else f + 1

/-- Python's `round(x, 1)`. -/
def round1 (q : ℚ) : ℚ := (roundHalfEven (q * 10) : ℚ) / 10

/-- Python's `round(x, 2)`. -/
def round2 (q : ℚ) : ℚ := (roundHalfEven (q * 100) : ℚ) / 100

/-! ## Generic natural-key upsert

`data_sync_service.py` reconciles each external collection with the same
shape of loop (e.g. `sync_teams`, lines 68–98): look the incoming record's
natural key up in the store, update the found row in place if it exists,
otherwise add a fresh row.  We factor that loop out over the record type
`σ`, the incoming-datum type `δ` and the key type `κ`. -/

section Upsert

variable {κ σ δ : Type} [DecidableEq κ]

/-- The natural-key membership test `filter(key == c)` of the upsert. -/
def keyIs (keyR : σ → κ) (c : κ) : σ → Bool := fun r => keyR r = c

/-- One reconciliation step: `existing = query.filter(key == d.key).first();
if existing: update(existing, d) else: db.add(create(d))`. -/
def upsert (keyR : σ → κ) (keyD : δ → κ) (create : δ → σ) (update : σ → δ → σ)
    (s : List σ) (d : δ) : List σ :=
  if s.any (keyIs keyR (keyD d)) then
    updateFirst (keyIs keyR (keyD d)) (fun r => update r d) s
  else
    s ++ [create d]

/-- The per-collection sync loop: fold the upsert over the fetched batch. -/
def syncStore (keyR : σ → κ) (keyD : δ → κ) (create : δ → σ) (update : σ → δ → σ)
    (s : List σ) (l : List δ) : List σ :=
  l.foldl (upsert keyR keyD create update) s

end Upsert

/-! ## Data model of the persisted store (`app/db/models.py`)

Integer columns are `ℤ`, float columns `ℚ`, nullable columns `Option _`.
The JSON `stats` blob of a fixture is modelled as an opaque
`Option String` payload (it is copied verbatim by the sync and read by
nothing in scope).  `created_at` / `updated_at` / `season` bookkeeping
columns are out of scope (spec §1). -/

/-- Row of the `teams` table. -/
structure TeamRec where
  id : ℤ
  name : String
  short_name : String
  code : ℤ
  strength : ℤ
  strength_overall_home : ℤ
  strength_overall_away : ℤ
  strength_attack_home : ℤ
  strength_attack_away : ℤ
  strength_defence_home : ℤ
  strength_defence_away : ℤ
deriving DecidableEq

/-- One record of the external teams fetch, with the `.get(key, 3)`
defaults of `sync_teams` already resolved into the field values. -/
structure TeamData where
  id : ℤ
  name : String
  short_name : String
  code : ℤ
  strength : ℤ
  strength_overall_home : ℤ
  strength_overall_away : ℤ
  strength_attack_home : ℤ
  strength_attack_away : ℤ
  strength_defence_home : ℤ
  strength_defence_away : ℤ
deriving DecidableEq

/-- `sync_teams`: create a new `Team` row from API data. -/
def createTeam (d : TeamData) : TeamRec :=
  { id := d.id, name := d.name, short_name := d.short_name, code := d.code
    strength := d.strength
    strength_overall_home := d.strength_overall_home
    strength_overall_away := d.strength_overall_away
    strength_attack_home := d.strength_attack_home
    strength_attack_away := d.strength_attack_away
    strength_defence_home := d.strength_defence_home
    strength_defence_away := d.strength_defence_away }

/-- `sync_teams`: update an existing `Team` row in place (the surrogate
`id` and the natural key `code` are not touched). -/
def updateTeam (r : TeamRec) (d : TeamData) : TeamRec :=
  { r with
    name := d.name, short_name := d.short_name
    strength := d.strength
    strength_overall_home := d.strength_overall_home
    strength_overall_away := d.strength_overall_away
    strength_attack_home := d.strength_attack_home
    strength_attack_away := d.strength_attack_away
    strength_defence_home := d.strength_defence_home
    strength_defence_away := d.strength_defence_away }

/-- Row of the `players` table (`app/db/models.py`). -/
structure PlayerRec where
  id : ℤ
  web_name : String
  first_name : String
  second_name : String
  element_type : ℤ
  team_id : ℤ
  now_cost : ℤ
  cost_change_start : ℤ
  cost_change_event : ℤ
  total_points : ℤ
  points_per_game : ℚ
  form : ℚ
  selected_by_percent : ℚ
  transfers_in_event : ℤ
  transfers_out_event : ℤ
  minutes : ℤ
  goals_scored : ℤ
  assists : ℤ
  clean_sheets : ℤ
  goals_conceded : ℤ
  own_goals : ℤ
  penalties_saved : ℤ
  penalties_missed : ℤ
  yellow_cards : ℤ
  red_cards : ℤ
  saves : ℤ
  bonus : ℤ
  bps : ℤ
  expected_goals : ℚ
  expected_assists : ℚ
  expected_goal_involvements : ℚ
  expected_goals_conceded : ℚ
  status : String
  news : String
  chance_of_playing_this_round : Option ℤ
  chance_of_playing_next_round : Option ℤ
deriving DecidableEq

/-- One record of the external players fetch (`sync_players` consumes
exactly these fields; `.get` defaults resolved into the values). -/
structure PlayerData where
  id : ℤ
  web_name : String
  first_name : String
  second_name : String
  element_type : ℤ
  team : ℤ
  now_cost : ℤ
  cost_change_start : ℤ
  cost_change_event : ℤ
  total_points : ℤ
  points_per_game : ℚ
  form : ℚ
  selected_by_percent : ℚ
  transfers_in_event : ℤ
  transfers_out_event : ℤ
  minutes : ℤ
  goals_scored : ℤ
  assists : ℤ
  clean_sheets : ℤ
  goals_conceded : ℤ
  own_goals : ℤ
  penalties_saved : ℤ
  penalties_missed : ℤ
  yellow_cards : ℤ
  red_cards : ℤ
  saves : ℤ
  bonus : ℤ
  bps : ℤ
  expected_goals : ℚ
  expected_assists : ℚ
  expected_goal_involvements : ℚ
  expected_goals_conceded : ℚ
  status : String
  news : String
  chance_of_playing_this_round : Option ℤ
  chance_of_playing_next_round : Option ℤ
deriving DecidableEq

/-- `_create_player_from_api_data`. -/
def createPlayer (d : PlayerData) : PlayerRec :=
  { id := d.id, web_name := d.web_name, first_name := d.first_name
    second_name := d.second_name, element_type := d.element_type
    team_id := d.team, now_cost := d.now_cost
    cost_change_start := d.cost_change_start
    cost_change_event := d.cost_change_event
    total_points := d.total_points, points_per_game := d.points_per_game
    form := d.form, selected_by_percent := d.selected_by_percent
    transfers_in_event := d.transfers_in_event
    transfers_out_event := d.transfers_out_event
    minutes := d.minutes, goals_scored := d.goals_scored
    assists := d.assists, clean_sheets := d.clean_sheets
    goals_conceded := d.goals_conceded, own_goals := d.own_goals
    penalties_saved := d.penalties_saved
    penalties_missed := d.penalties_missed
    yellow_cards := d.yellow_cards, red_cards := d.red_cards
    saves := d.saves, bonus := d.bonus, bps := d.bps
    expected_goals := d.expected_goals
    expected_assists := d.expected_assists
    expected_goal_involvements := d.expected_goal_involvements
    expected_goals_conceded := d.expected_goals_conceded
    status := d.status, news := d.news
    chance_of_playing_this_round := d.chance_of_playing_this_round
    chance_of_playing_next_round := d.chance_of_playing_next_round }

/-- `_update_player_from_api_data` (does not touch the key `id`; the
`element_type` column is likewise not reassigned by the Python update). -/
def updatePlayer (r : PlayerRec) (d : PlayerData) : PlayerRec :=
  { r with
    web_name := d.web_name, first_name := d.first_name
    second_name := d.second_name
    team_id := d.team, now_cost := d.now_cost
    cost_change_start := d.cost_change_start
    cost_change_event := d.cost_change_event
    total_points := d.total_points, points_per_game := d.points_per_game
    form := d.form, selected_by_percent := d.selected_by_percent
    transfers_in_event := d.transfers_in_event
    transfers_out_event := d.transfers_out_event
    minutes := d.minutes, goals_scored := d.goals_scored
    assists := d.assists, clean_sheets := d.clean_sheets
    goals_conceded := d.goals_conceded, own_goals := d.own_goals
    penalties_saved := d.penalties_saved
    penalties_missed := d.penalties_missed
    yellow_cards := d.yellow_cards, red_cards := d.red_cards
    saves := d.saves, bonus := d.bonus, bps := d.bps
    expected_goals := d.expected_goals
    expected_assists := d.expected_assists
    expected_goal_involvements := d.expected_goal_involvements
    expected_goals_conceded := d.expected_goals_conceded
    status := d.status, news := d.news
    chance_of_playing_this_round := d.chance_of_playing_this_round
    chance_of_playing_next_round := d.chance_of_playing_next_round }

/-- Row of the `fixtures` table.  `kickoff_time` is a nullable timestamp,
modelled as `Option ℤ` (epoch value). -/
structure FixtureRec where
  id : ℤ
  code : ℤ
  event : ℤ
  finished : Bool
  finished_provisional : Bool
  kickoff_time : Option ℤ
  minutes : ℤ
  provisional_start_time : Bool
  started : Bool
  team_h_id : ℤ
  team_a_id : ℤ
  team_h_score : Option ℤ
  team_a_score : Option ℤ
  team_h_difficulty : ℤ
  team_a_difficulty : ℤ
  stats : Option String
deriving DecidableEq

/-- One record of the external fixtures fetch.  `kickoff` is the parsed
kickoff timestamp; `none` stands for a missing *or unparseable*
`kickoff_time` value (both of which leave the column alone on update and
`NULL` on create, per the `try/except pass` in the source). -/
structure FixtureData where
  id : ℤ
  code : ℤ
  event : ℤ
  finished : Bool
  finished_provisional : Bool
  kickoff : Option ℤ
  minutes : ℤ
  provisional_start_time : Bool
  started : Bool
  team_h : ℤ
  team_a : ℤ
  team_h_score : Option ℤ
  team_a_score : Option ℤ
  team_h_difficulty : ℤ
  team_a_difficulty : ℤ
  stats : Option String
deriving DecidableEq

/-- `_create_fixture_from_api_data`. -/
def createFixture (d : FixtureData) : FixtureRec :=
  { id := d.id, code := d.code, event := d.event
    finished := d.finished, finished_provisional := d.finished_provisional
    kickoff_time := d.kickoff, minutes := d.minutes
    provisional_start_time := d.provisional_start_time
    started := d.started
    team_h_id := d.team_h, team_a_id := d.team_a
    team_h_score := d.team_h_score, team_a_score := d.team_a_score
    team_h_difficulty := d.team_h_difficulty
    team_a_difficulty := d.team_a_difficulty
    stats := d.stats }

/-- `_update_fixture_from_api_data`: every mutable column is overwritten;
the key `code`, the surrogate `id` and the two team references are not
touched, and the kickoff time is only reassigned when the datum carries a
parseable one. -/
def updateFixture (r : FixtureRec) (d : FixtureData) : FixtureRec :=
  let r := { r with
    event := d.event
    finished := d.finished, finished_provisional := d.finished_provisional
    minutes := d.minutes
    provisional_start_time := d.provisional_start_time
    started := d.started
    team_h_score := d.team_h_score, team_a_score := d.team_a_score
    team_h_difficulty := d.team_h_difficulty
    team_a_difficulty := d.team_a_difficulty
    stats := d.stats }
  match d.kickoff with
  | some k => { r with kickoff_time := some k }
  | none => r

/-- Row of the `player_gameweek_stats` table (composite natural key
`(player_id, gameweek)`). -/
structure StatsRec where
  player_id : ℤ
  gameweek : ℤ
  minutes : ℤ
  goals_scored : ℤ
  assists : ℤ
  clean_sheets : ℤ
  goals_conceded : ℤ
  own_goals : ℤ
  penalties_saved : ℤ
  penalties_missed : ℤ
  yellow_cards : ℤ
  red_cards : ℤ
  saves : ℤ
  bonus : ℤ
  bps : ℤ
  total_points : ℤ
  expected_goals : ℚ
  expected_assists : ℚ
  expected_goal_involvements : ℚ
  expected_goals_conceded : ℚ
  influence : ℚ
  creativity : ℚ
  threat : ℚ
  ict_index : ℚ
  value : ℚ
deriving DecidableEq

/-- One entry of the gameweek-live fetch: the `player_id` dictionary key
together with the consumed fields of its payload (the nested `stats`
sub-dictionary flattened, `.get` defaults resolved). -/
structure StatsData where
  player_id : ℤ
  minutes : ℤ
  goals_scored : ℤ
  assists : ℤ
  clean_sheets : ℤ
  goals_conceded : ℤ
  own_goals : ℤ
  penalties_saved : ℤ
  penalties_missed : ℤ
  yellow_cards : ℤ
  red_cards : ℤ
  saves : ℤ
  bonus : ℤ
  bps : ℤ
  total_points : ℤ
  expected_goals : ℚ
  expected_assists : ℚ
  expected_goal_involvements : ℚ
  expected_goals_conceded : ℚ
  influence : ℚ
  creativity : ℚ
  threat : ℚ
  ict_index : ℚ
  value : ℚ
deriving DecidableEq

/-- `_create_gameweek_stats_from_api_data`. -/
def createStats (gw : ℤ) (d : StatsData) : StatsRec :=
  { player_id := d.player_id, gameweek := gw
    minutes := d.minutes, goals_scored := d.goals_scored
    assists := d.assists, clean_sheets := d.clean_sheets
    goals_conceded := d.goals_conceded, own_goals := d.own_goals
    penalties_saved := d.penalties_saved
    penalties_missed := d.penalties_missed
    yellow_cards := d.yellow_cards, red_cards := d.red_cards
    saves := d.saves, bonus := d.bonus, bps := d.bps
    total_points := d.total_points
    expected_goals := d.expected_goals
    expected_assists := d.expected_assists
    expected_goal_involvements := d.expected_goal_involvements
    expected_goals_conceded := d.expected_goals_conceded
    influence := d.influence, creativity := d.creativity
    threat := d.threat, ict_index := d.ict_index, value := d.value }

/-- `_update_gameweek_stats_from_api_data` (composite key untouched). -/
def updateStats (r : StatsRec) (d : StatsData) : StatsRec :=
  { r with
    minutes := d.minutes, goals_scored := d.goals_scored
    assists := d.assists, clean_sheets := d.clean_sheets
    goals_conceded := d.goals_conceded, own_goals := d.own_goals
    penalties_saved := d.penalties_saved
    penalties_missed := d.penalties_missed
    yellow_cards := d.yellow_cards, red_cards := d.red_cards
    saves := d.saves, bonus := d.bonus, bps := d.bps
    total_points := d.total_points
    expected_goals := d.expected_goals
    expected_assists := d.expected_assists
    expected_goal_involvements := d.expected_goal_involvements
    expected_goals_conceded := d.expected_goals_conceded
    influence := d.influence, creativity := d.creativity
    threat := d.threat, ict_index := d.ict_index, value := d.value }

/-! ## The sync engine (`data_sync_service.py`) -/

/-- The upsert loop of `sync_teams` (lines 68–98): teams are reconciled
by their natural key `code`. -/
def syncTeamsStore (s : List TeamRec) (l : List TeamData) : List TeamRec :=
  syncStore (·.code) (·.code) createTeam updateTeam s l

/-- The upsert loop of `sync_players`: reconciled by player `id`. -/
def syncPlayersStore (s : List PlayerRec) (l : List PlayerData) : List PlayerRec :=
  syncStore (·.id) (·.id) createPlayer updatePlayer s l

/-- The upsert loop of `sync_fixtures` (lines 158–168): reconciled by the
fixture's natural key `code`. -/
def syncFixturesStore (s : List FixtureRec) (l : List FixtureData) : List FixtureRec :=
  syncStore (·.code) (·.code) createFixture updateFixture s l

/-- The upsert loop of `sync_gameweek_stats`: reconciled by the composite
key `(player_id, gameweek)`. -/
def syncStatsStore (gw : ℤ) (s : List StatsRec) (l : List StatsData) : List StatsRec :=
  syncStore (fun r => (r.player_id, r.gameweek)) (fun d => (d.player_id, gw))
    (createStats gw) updateStats s l

/-- A fetch result: `none` when the fetch raised. -/
abbrev Fetched (α : Type) := Option α

/-- The external API collaborator, as seen by one `sync_all_data` call. -/
structure ApiData where
  /-- entering `async with fpl_api as api` succeeded -/
  enterOk : Bool
  teams : Fetched (List TeamData)
  players : Fetched (List PlayerData)
  fixtures : Fetched (List FixtureData)
  /-- result of `api.get_current_gameweek()`: `none` when the call raised,
  `some g` when it returned `g` (`g = none`: Python `None`). -/
  currentGw : Fetched (Option ℤ)
  /-- gameweek-live payload; `none` when the fetch raised or the payload
  had no `elements` key. -/
  gwLive : Fetched (List StatsData)

/-- `sync_teams` including its error handling: `False` when the fetch
raised or returned no data, `True` after a successful upsert loop. -/
def syncTeams (s : List TeamRec) (fetched : Fetched (List TeamData)) :
    List TeamRec × Bool :=
  match fetched with
  | none => (s, false)
  | some l => if l.isEmpty then (s, false) else (syncTeamsStore s l, true)

/-- `sync_players` including its error handling. -/
def syncPlayers (s : List PlayerRec) (fetched : Fetched (List PlayerData)) :
    List PlayerRec × Bool :=
  match fetched with
  | none => (s, false)
  | some l => if l.isEmpty then (s, false) else (syncPlayersStore s l, true)

/-- `sync_fixtures` including its error handling. -/
def syncFixtures (s : List FixtureRec) (fetched : Fetched (List FixtureData)) :
    List FixtureRec × Bool :=
  match fetched with
  | none => (s, false)
  | some l => if l.isEmpty then (s, false) else (syncFixturesStore s l, true)

/-- `sync_gameweek_stats` including its error handling. -/
def syncGameweekStats (gw : ℤ) (s : List StatsRec) (fetched : Fetched (List StatsData)) :
    List StatsRec × Bool :=
  match fetched with
  | none => (s, false)
  | some l => (syncStatsStore gw s l, true)

/-- The whole persisted store. -/
structure Store where
  teams : List TeamRec
  players : List PlayerRec
  fixtures : List FixtureRec
  stats : List StatsRec
deriving DecidableEq

/-- In-memory state of the `DataSyncService` singleton: the store plus the
(non-persisted) `last_sync` attribute. -/
structure SyncState where
  store : Store
  lastSync : Option ℤ
deriving DecidableEq

/-- The staleness check of `sync_all_data`: `not force and self.last_sync`
followed by `time_since_sync < timedelta(...)`. -/
def syncIsFresh (lastSync : Option ℤ) (now interval : ℤ) : Bool :=
  match lastSync with
  | some t => now - t < interval
  | none => false

/-- `sync_all_data` (lines 21–54).  Returns the new service state and the
method's boolean result.  Faithful control flow: the staleness check first;
each per-collection sync catches its own errors, and its boolean result is
*ignored* by `sync_all_data`; the only exceptions appearing to the outer
`try` are a failure entering the API context and a raise inside
`api.get_current_gameweek()` (which is called outside any inner guard), in
which case the already-performed collection syncs are kept but `last_sync`
stays unset and the call returns `False`. -/
def syncAllData (st : SyncState) (api : ApiData) (force : Bool)
    (now interval : ℤ) : SyncState × Bool :=
  if !force && syncIsFresh st.lastSync now interval then
    (st, true)
  else if !api.enterOk then (st, false)
  else
    let s1 := (syncTeams st.store.teams api.teams).1
    let s2 := (syncPlayers st.store.players api.players).1
    let s3 := (syncFixtures st.store.fixtures api.fixtures).1
    match api.currentGw with
    | none =>
        ({ st with store := { st.store with teams := s1, players := s2, fixtures := s3 } },
         false)
    | some gwOpt =>
        let s4 := match gwOpt with
          | some gw =>
              if gw = 0 then st.store.stats
              else (syncGameweekStats gw st.store.stats api.gwLive).1
          | none => st.store.stats
        ({ store := { teams := s1, players := s2, fixtures := s3, stats := s4 },
           lastSync := some now }, true)

/-! ## The fixture service (`fixture_service.py`) -/

/-- The first query of `get_current_gameweek` (lines 118–120): the finished
fixture returned by `ORDER BY event DESC ... first()`.  Only its `event`
is read downstream, so the tie-break among equal maximal events is
immaterial; we keep the first of the maximal ones. -/
def latestFinished (db : List FixtureRec) : Option FixtureRec :=
  (db.filter (·.finished)).foldl
    (fun acc f =>
      match acc with
      | none => some f
      | some g => if g.event < f.event then some f else some g)
    none

/-- `get_current_gameweek` (lines 115–148).  `now` is `datetime.now()`.
The `Optional[int]` return type is kept. -/
def getCurrentGameweek (db : List FixtureRec) (now : ℤ) : Option ℤ :=
  match latestFinished db with
  | some lf =>
      let next_gw := lf.event + 1
      match (db.filter (fun f =>
          f.event == next_gw && f.started && !f.finished)).head? with
      | some _ => some next_gw
      | none =>
          match (db.filter (fun f => f.event == next_gw)).head? with
          | some f =>
              match f.kickoff_time with
              | some k => if k ≤ now then some next_gw else some (lf.event + 1)
              | none => some (lf.event + 1)
          | none => some (lf.event + 1)
  | none => some 1

/-- One entry of a team's difficulty report (`fixture_info`, lines 89–96).
The display-only `opponent` / `opponent_short` / `kickoff_time` strings are
not modelled. -/
structure FixtureEntry where
  gameweek : ℤ
  is_home : Bool
  difficulty : ℤ
deriving DecidableEq

/-- The `FixtureDifficulty` payload built per team (lines 103–110). -/
structure FixtureDifficulty where
  team_id : ℤ
  team_name : String
  team_short_name : String
  fixtures : List FixtureEntry
  average_difficulty : ℚ
  total_difficulty : ℤ
deriving DecidableEq

/-- The per-fixture data taken for a team: home/away role and the
difficulty rating of that role. -/
def teamFixtureEntry (tid : ℤ) (f : FixtureRec) : FixtureEntry :=
  let is_home := f.team_h_id == tid
  { gameweek := f.event
    is_home := is_home
    difficulty := if is_home then f.team_h_difficulty else f.team_a_difficulty }

/-- The fixture query of `get_all_fixture_difficulty` (lines 66–76): the
team's unfinished fixtures with `event` in
`[current_gw, current_gw + next_gameweeks - 1]`, ordered by `event`
ascending. -/
def relevantFixtures (db : List FixtureRec) (currentGw horizon tid : ℤ) :
    List FixtureRec :=
  sortByAsc (·.event) (db.filter (fun f =>
    (f.team_h_id == tid || f.team_a_id == tid) &&
    decide (currentGw ≤ f.event) &&
    decide (f.event ≤ currentGw + horizon - 1) &&
    !f.finished))

/-- The body of the per-team loop of `get_all_fixture_difficulty`
(lines 64–110): list the relevant fixtures with the team's role
difficulty, sum them, and report `round(total/len, 2)`, or `3.0` when the
list is empty. -/
def difficultyForTeam (db : List FixtureRec) (currentGw horizon : ℤ)
    (team : TeamRec) : FixtureDifficulty :=
  let entries := (relevantFixtures db currentGw horizon team.id).map
    (teamFixtureEntry team.id)
  let total : ℤ := (entries.map (·.difficulty)).sum
  let avg : ℚ := if entries.isEmpty then 3 else (total : ℚ) / entries.length
  { team_id := team.id, team_name := team.name
    team_short_name := team.short_name
    fixtures := entries
    average_difficulty := round2 avg
    total_difficulty := total }

/-- `get_all_fixture_difficulty` (lines 55–113): one report per team,
sorted by average difficulty ascending (easier fixtures first);
`if not current_gw: return []` guards the (never-`None`) current
gameweek's falsy value `0`. -/
def getAllFixtureDifficulty (teams : List TeamRec) (db : List FixtureRec)
    (now : ℤ) (nextGameweeks : ℤ) : List FixtureDifficulty :=
  match getCurrentGameweek db now with
  | none => []
  | some gw =>
      if gw = 0 then []
      else sortByAsc (·.average_difficulty)
        (teams.map (difficultyForTeam db gw nextGameweeks))

/-- The current-gameweek derivation as the specification words it
(spec §4.3, claim C6): the lowest gameweek with a started-but-not-finished
fixture; else the gameweek after the most recently *fully finished*
gameweek; else 1.  This definition follows the spec's words — it is the
comparison point for `getCurrentGameweek`, not a translation of the
source. -/
def specCurrentGameweekC6 (db : List FixtureRec) : ℤ :=
  let liveGws := (db.filter (fun f => f.started && !f.finished)).map (·.event)
  match liveGws.min? with
  | some m => m
  | none =>
      let gws := (db.map (·.event)).dedup
      let fullyFinished := gws.filter (fun g =>
        (db.filter (fun f => f.event == g)).all (·.finished))
      match fullyFinished.max? with
      | some m => m + 1
      | none => 1

/-! ## The deterministic recommendation algorithms (`ai_service.py`)

The player records below are the dictionaries built by
`_fetch_real_player_data` (lines 59–79).  Only the fields consumed by the
embedded algorithms are modelled (`id`, `name`, `team`, `position`,
`price`, `total_points`, `form`, `points_per_game`, `status`); the
remaining dictionary entries (goals, assists, expected stats, news, …)
are only interpolated into free-text reasoning strings or the LLM prompt,
which are out of scope. -/

structure Player where
  id : ℤ
  name : String
  team : String
  position : String
  price : ℚ
  total_points : ℤ
  form : ℚ
  points_per_game : ℚ
  status : String
deriving DecidableEq

/-- The value score of `_get_top_players_by_position` (lines 347–352):
`(points / max(price, 4.0)) + form * 2`. -/
def valueScoreTop (p : Player) : ℚ :=
  (p.total_points : ℚ) / max p.price 4 + p.form * 2

/-- The value score of `_build_budget_aware_squad` (lines 446–451):
`(points / max(price, 0.1)) + form * 2`. -/
def valueScoreBuilder (p : Player) : ℚ :=
  (p.total_points : ℚ) / max p.price (1/10) + p.form * 2

/-- The four position buckets returned by the shortlist builders. -/
structure TopByPosition where
  gk : List Player
  df : List Player
  mf : List Player
  fw : List Player
deriving DecidableEq

/-- `_get_top_players_by_position` as defined at lines 340–365: bucket by
position, sort by value score descending, keep the top 20 per position. -/
def getTopPlayersByPosition (players : List Player) : TopByPosition :=
  let bucket := fun (pos : String) =>
    (sortByDesc valueScoreTop (players.filter (·.position == pos))).take 20
  { gk := bucket "GK", df := bucket "DEF", mf := bucket "MID", fw := bucket "FWD" }

/-- The *second* method of the same name, lines 1657–1670.  Python binds
class attributes in order, so this later definition shadows the one at
line 340 at class-creation time, and every `self._get_top_players_by_position`
call dispatches here: bucket by position, sort by `total_points`
descending, keep the top 10. -/
def getTopPlayersByPositionShadow (players : List Player) : TopByPosition :=
  let bucket := fun (pos : String) =>
    (sortByDesc (fun p => p.total_points) (players.filter (·.position == pos))).take 10
  { gk := bucket "GK", df := bucket "DEF", mf := bucket "MID", fw := bucket "FWD" }

/-- One squad slot produced by `_build_budget_aware_squad` (lines 502–510).
The free-text `reasoning` string is not modelled. -/
structure SelectedPlayer where
  player_name : String
  team : String
  position : String
  price : ℚ
  predicted_points : ℚ
deriving DecidableEq

/-- `_get_position_budget_ratio` (lines 518–526). -/
def positionBudgetRatio (pos : String) : ℚ :=
  if pos == "GK" then 1/10
  else if pos == "DEF" then 1/4
  else if pos == "MID" then 9/20
  else if pos == "FWD" then 1/5
  else 3/20

/-- The `predicted_points` cap of the formatted squad entry (line 508):
50 for forwards, 40 for midfielders, 30 otherwise. -/
def predictedPointsCap (pos : String) : ℚ :=
  if pos == "FWD" then 50 else if pos == "MID" then 40 else 30

/-- Formatting of a selected player (lines 502–510). -/
def formatSelected (p : Player) (pos : String) : SelectedPlayer :=
  { player_name := p.name, team := p.team, position := pos, price := p.price
    predicted_points := min ((p.total_points : ℚ) * 3/10) (predictedPointsCap pos) }

/-- The affordable-candidate search of one builder iteration
(lines 485–498): first the highest-ranked player within
`min(position_budget, remaining_budget, max_price)`, else the cheapest
player within the remaining budget (`min(..., key=price)` returns the
first minimum). -/
def pickAffordable (avail : List Player) (posBudget remaining maxPrice : ℚ) :
    Option Player :=
  match avail.find? (fun p => decide (p.price ≤ min posBudget (min remaining maxPrice))) with
  | some p => some p
  | none =>
      match avail.filter (fun p => decide (p.price ≤ remaining)) with
      | [] => none
      | a :: as => some (minByFirst (·.price) a as)

/-- The `for i in range(count)` selection loop of one position
(lines 481–514): stop early when the bucket is exhausted, otherwise pick,
format, deduct the price and remove the pick from the bucket; an iteration
without an affordable candidate selects nothing. -/
def selectLoop (pos : String) (maxPrice posBudget : ℚ) :
    ℕ → List Player → List SelectedPlayer → ℚ → List SelectedPlayer × ℚ
  | 0, _, sel, rem => (sel, rem)
  | n + 1, avail, sel, rem =>
    if avail.isEmpty then (sel, rem)
    else
      match pickAffordable avail posBudget rem maxPrice with
      | some p =>
          selectLoop pos maxPrice posBudget n (avail.erase p)
            (sel ++ [formatSelected p pos]) (rem - p.price)
      | none => selectLoop pos maxPrice posBudget n avail sel rem

/-- The body of the `for position, count, min_price, max_price in
position_requirements` loop (lines 477–514) for one position: compute the
position sub-budget from the remaining budget at entry, rank the
position's bucket by `valueScoreBuilder` descending (stable), and run the
selection loop `count` times. -/
def buildStep (players : List Player) (acc : List SelectedPlayer × ℚ)
    (pos : String) (count : ℕ) (maxPrice : ℚ) : List SelectedPlayer × ℚ :=
  let posBudget := acc.2 * positionBudgetRatio pos
  selectLoop pos maxPrice posBudget count
    (sortByDesc valueScoreBuilder (players.filter (·.position == pos)))
    acc.1 acc.2

/-- `_build_budget_aware_squad` (lines 436–516): the
`position_requirements` loop unrolled over its four fixed entries
`("GK", 2), ("DEF", 5), ("MID", 5), ("FWD", 3)` with the budget-derived
price caps of lines 465–468.  The per-position `min_price` of
`position_requirements` only serves as a `dict.get` default for the
always-present price and is not modelled. -/
def buildBudgetAwareSquad (players : List Player) (budget : ℚ) :
    List SelectedPlayer :=
  let maxGk := min 6 (budget * 6 / 100)
  let maxDef := min 8 (budget * 8 / 100)
  let maxMid := min 15 (budget * 15 / 100)
  let maxFwd := min 15 (budget * 15 / 100)
  (buildStep players
    (buildStep players
      (buildStep players
        (buildStep players ([], budget) "GK" 2 maxGk)
        "DEF" 5 maxDef)
      "MID" 5 maxMid)
    "FWD" 3 maxFwd).1

/-! ### The transfer advisor (`ai_service.py`, lines 805–980) -/

/-- One entry of the caller-provided `current_squad` list: the fields the
advisor reads (`player_name`, and `player_id` when present). -/
structure SquadEntry where
  player_name : String
  player_id : Option ℤ
deriving DecidableEq

/-- The fixture dictionaries of `_fetch_real_fixture_data` (lines 105–117),
restricted to the fields `_calculate_fixture_score` consumes (`team_h` and
`team_a` are team *names*). -/
structure FixtureInfo where
  gameweek : ℤ
  team_h : String
  team_a : String
  team_h_difficulty : ℤ
  team_a_difficulty : ℤ
deriving DecidableEq

/-- The underperformance test of `_identify_underperforming_players`
(line 901): `form < 3.0 or (points_per_game < 4.0 and price > 6.0) or
points_per_game < 2.0`. -/
def isUnderperformer (p : Player) : Bool :=
  decide (p.form < 3) ||
  (decide (p.points_per_game < 4) && decide (6 < p.price)) ||
  decide (p.points_per_game < 2)

/-- The squad-to-pool matching of `_identify_underperforming_players`
(lines 885–906): resolve each squad entry against the pool by name or id,
keep the underperformers, sort worst first by `form + points_per_game`
ascending (stable). -/
def identifyUnderperformers (squad : List SquadEntry) (allPlayers : List Player) :
    List Player :=
  let found := squad.filterMap (fun sq =>
    allPlayers.find? (fun p =>
      p.name == sq.player_name ||
      (match sq.player_id with | some i => p.id == i | none => false)))
  sortByAsc (fun p => p.form + p.points_per_game) (found.filter isUnderperformer)

/-- The scan of `_calculate_fixture_score` (lines 952–963): walk the
fixture list in order, stop once `gameweeks` fixtures of the player's team
were counted, score each counted fixture `6 - difficulty` of the team's
role, skipping a falsy (zero) difficulty. -/
def fixtureScoreLoop (team : String) (gameweeks : ℕ) :
    List FixtureInfo → ℕ → ℚ → ℚ × ℕ
  | [], found, score => (score, found)
  | f :: fs, found, score =>
    if gameweeks ≤ found then (score, found)
    else if f.team_h == team || f.team_a == team then
      let d := if f.team_h == team then f.team_h_difficulty else f.team_a_difficulty
      if d = 0 then fixtureScoreLoop team gameweeks fs found score
      else fixtureScoreLoop team gameweeks fs (found + 1) (score + (6 - (d : ℚ)))
    else fixtureScoreLoop team gameweeks fs found score

/-- `_calculate_fixture_score` (lines 946–965): average of the per-fixture
scores, guarded by `max(fixtures_found, 1)`. -/
def calcFixtureScore (p : Player) (fixtures : List FixtureInfo) (gameweeks : ℕ) : ℚ :=
  let r := fixtureScoreLoop p.team gameweeks fixtures 0 0
  r.1 / ((max r.2 1 : ℕ) : ℚ)

/-- `_calculate_predicted_points` (lines 967–974):
`round((ppg * 0.7 + form * 0.3) * gameweeks, 1)`. -/
def calcPredictedPoints (p : Player) (gameweeks : ℕ) : ℚ :=
  round1 ((p.points_per_game * 7 / 10 + p.form * 3 / 10) * gameweeks)

/-- `_calculate_expected_gain` (lines 976–980). -/
def calcExpectedGain (outP inP : Player) (gameweeks : ℕ) : ℚ :=
  round1 (calcPredictedPoints inP gameweeks - calcPredictedPoints outP gameweeks)

/-- The candidate score of `_find_transfer_alternatives` (line 933):
`form * 2 + points_per_game * 3 + fixture_score - price * 0.1`. -/
def transferScore (p : Player) (fixtures : List FixtureInfo) (gameweeks : ℕ) : ℚ :=
  p.form * 2 + p.points_per_game * 3 + calcFixtureScore p fixtures gameweeks -
    p.price * 1 / 10

/-- `_find_transfer_alternatives` (lines 908–944): same-position,
different-name candidates whose transfer score beats the underperformer's
current score (`form * 2 + ppg * 3`) by more than 2, sorted by transfer
score descending (stable), top 5. -/
def findTransferAlternatives (u : Player) (allPlayers : List Player)
    (fixtures : List FixtureInfo) (gameweeks : ℕ) : List Player :=
  let cs := u.form * 2 + u.points_per_game * 3
  let alts := allPlayers.filter (fun p =>
    p.position == u.position && p.name != u.name &&
    decide (cs + 2 < transferScore p fixtures gameweeks))
  (sortByDesc (fun p => transferScore p fixtures gameweeks) alts).take 5

/-- One accepted transfer (lines 834–858).  The `out`/`in` payloads are
the underperformer's and the alternative's player records; the formatted
dictionary fields are projections of these.  The free-text reasoning is
not modelled. -/
structure Transfer where
  outPlayer : Player
  inPlayer : Player
  priority : ℕ
  expected_gain : ℚ
  cost_change : ℚ
deriving DecidableEq

/-- The acceptance loop of `_analyze_transfer_opportunities`
(lines 823–859): for each underperformer in order, take the top
alternative if any, and accept the transfer only when the cumulative cost
change stays within the budget. -/
def transferLoop (allPlayers : List Player) (fixtures : List FixtureInfo)
    (budget : ℚ) (gameweeks : ℕ) :
    List Player → List Transfer → ℚ → List Transfer × ℚ
  | [], acc, total => (acc, total)
  | u :: us, acc, total =>
    match findTransferAlternatives u allPlayers fixtures gameweeks with
    | [] => transferLoop allPlayers fixtures budget gameweeks us acc total
    | best :: _ =>
        let cost_change := best.price - u.price
        if total + cost_change ≤ budget then
          transferLoop allPlayers fixtures budget gameweeks us
            (acc ++ [{ outPlayer := u, inPlayer := best
                       priority := acc.length + 1
                       expected_gain := calcExpectedGain u best gameweeks
                       cost_change := cost_change }])
            (total + cost_change)
        else transferLoop allPlayers fixtures budget gameweeks us acc total

/-- The result fields of `_analyze_transfer_opportunities` the claims are
about: the transfer list and the remaining budget. -/
structure TransferRecommendation where
  transfers : List Transfer
  budget_remaining : ℚ
deriving DecidableEq

/-- `_analyze_transfer_opportunities` (lines 805–879). -/
def analyzeTransferOpportunities (squad : List SquadEntry)
    (allPlayers : List Player) (fixtures : List FixtureInfo) (budget : ℚ)
    (freeTransfers : ℕ) (gameweeks : ℕ) : TransferRecommendation :=
  let ups := (identifyUnderperformers squad allPlayers).take freeTransfers
  let r := transferLoop allPlayers fixtures budget gameweeks ups [] 0
  { transfers := r.1, budget_remaining := budget - r.2 }

/-- The two-fixture step function of `latestFinished` keeps the one with
the larger `event`. -/
def laterOf (g f : FixtureRec) : FixtureRec :=
  if g.event < f.event then f else g

/-- Total price of a selection list. -/
def squadCost (l : List SelectedPlayer) : ℚ := (l.map (fun p => p.price)).sum

/-- Number of squad slots filled for a position. -/
def countPos (pos : String) (l : List SelectedPlayer) : ℕ :=
  (l.filter (fun e => e.position == pos)).length

/-- Reassigning the availability status of every player, leaving all other
fields alone. -/
def setStatus (f : Player → String) (p : Player) : Player :=
  { p with status := f p }

/-- Applying a player transformation to each bucket. -/
def mapTop (g : Player → Player) (t : TopByPosition) : TopByPosition :=
  { gk := t.gk.map g, df := t.df.map g, mf := t.mf.map g, fw := t.fw.map g }

/-! ## Concrete instances used by the claim counterexamples and witnesses -/

/-- Shorthand for a player dictionary with the fields in scope. -/
def mkP (id : ℤ) (name team pos : String) (price : ℚ) (pts : ℤ)
    (form ppg : ℚ) (st : String) : Player :=
  { id := id, name := name, team := team, position := pos, price := price
    total_points := pts, form := form, points_per_game := ppg, status := st }

/-- Shorthand for a fixture row with the fields in scope. -/
def mkF (id ev : ℤ) (fin st : Bool) (h a dh da : ℤ) : FixtureRec :=
  { id := id, code := id, event := ev, finished := fin
    finished_provisional := fin, kickoff_time := none, minutes := 0
    provisional_start_time := false, started := st, team_h_id := h
    team_a_id := a, team_h_score := none, team_a_score := none
    team_h_difficulty := dh, team_a_difficulty := da, stats := none }

/-- A full 15-slot pool whose five best-value defenders all play for the
same club `"X"`. -/
def poolC2 : List Player :=
  [mkP 1 "g1" "Alpha" "GK" 4 0 0 0 "a", mkP 2 "g2" "Alpha" "GK" 4 0 0 0 "a",
   mkP 3 "d1" "X" "DEF" 4 100 0 0 "a", mkP 4 "d2" "X" "DEF" 4 100 0 0 "a",
   mkP 5 "d3" "X" "DEF" 4 100 0 0 "a", mkP 6 "d4" "X" "DEF" 4 100 0 0 "a",
   mkP 7 "d5" "X" "DEF" 4 100 0 0 "a",
   mkP 8 "m1" "B" "MID" (9/2) 0 0 0 "a", mkP 9 "m2" "B" "MID" (9/2) 0 0 0 "a",
   mkP 10 "m3" "B" "MID" (9/2) 0 0 0 "a", mkP 11 "m4" "B" "MID" (9/2) 0 0 0 "a",
   mkP 12 "m5" "B" "MID" (9/2) 0 0 0 "a",
   mkP 13 "f1" "C" "FWD" (9/2) 0 0 0 "a", mkP 14 "f2" "C" "FWD" (9/2) 0 0 0 "a",
   mkP 15 "f3" "C" "FWD" (9/2) 0 0 0 "a"]

/-- A 17-candidate pool (2 GK, 5 DEF, 7 MID, 3 FWD): the five premium
midfielders are greedily taken at 15.0 each, starving the forwards. -/
def poolC4 : List Player :=
  [mkP 1 "g1" "T1" "GK" 4 0 0 0 "a", mkP 2 "g2" "T1" "GK" 4 0 0 0 "a",
   mkP 3 "d1" "T2" "DEF" 4 0 0 0 "a", mkP 4 "d2" "T2" "DEF" 4 0 0 0 "a",
   mkP 5 "d3" "T3" "DEF" 4 0 0 0 "a", mkP 6 "d4" "T3" "DEF" 4 0 0 0 "a",
   mkP 7 "d5" "T4" "DEF" 4 0 0 0 "a",
   mkP 8 "m1" "T5" "MID" 15 1500 0 0 "a", mkP 9 "m2" "T5" "MID" 15 1500 0 0 "a",
   mkP 10 "m3" "T6" "MID" 15 1500 0 0 "a", mkP 11 "m4" "T6" "MID" 15 1500 0 0 "a",
   mkP 12 "m5" "T7" "MID" 15 1500 0 0 "a",
   mkP 16 "m6" "T8" "MID" (9/2) 0 0 0 "a", mkP 17 "m7" "T8" "MID" (9/2) 0 0 0 "a",
   mkP 13 "f1" "TA" "FWD" (9/2) 0 0 0 "a", mkP 14 "f2" "TA" "FWD" (9/2) 0 0 0 "a",
   mkP 15 "f3" "TB" "FWD" (9/2) 0 0 0 "a"]

/-- Two injured midfielders with high historical points. -/
def injMid1 : Player := mkP 1 "inj1" "T" "MID" 10 200 8 6 "i"

def injMid2 : Player := mkP 2 "inj2" "T" "MID" 10 180 7 5 "i"

/-- A cheap high-value player (price below the 4.0 floor). -/
def c9a : Player := mkP 1 "a" "T" "MID" 1 12 0 0 "a"

/-- A floor-priced player. -/
def c9b : Player := mkP 2 "b" "T" "MID" 4 16 0 0 "a"

/-- A player priced above both floors. -/
def c9w : Player := mkP 3 "w" "T" "MID" 5 30 1 2 "a"

/-- Current squad of two underperforming midfielders. -/
def squadC8 : List SquadEntry := [⟨"u1", none⟩, ⟨"u2", none⟩]

/-- Pool for the transfer counterexample: the common best alternative `x`
gains less over `u1` (predicted 1.3) than over `u2` (predicted 0.9). -/
def playersC8 : List Player :=
  [mkP 1 "u1" "TU" "MID" 5 0 0 (19/10) "a",
   mkP 2 "u2" "TV" "MID" 5 0 (29/10) 0 "a",
   mkP 3 "x" "TW" "MID" 5 0 5 0 "a"]

/-- Three unfinished home fixtures of team 1 at difficulties 1, 1, 2 in
gameweeks 1–3 (mean 4/3, reported 1.33). -/
def dbC5 : List FixtureRec :=
  [mkF 1 1 false false 1 2 1 3, mkF 2 2 false false 1 3 1 3,
   mkF 3 3 false false 1 4 2 3]

/-- The team the `dbC5` report is about. -/
def teamOne : TeamRec :=
  { id := 1, name := "A", short_name := "A", code := 11, strength := 3
    strength_overall_home := 3, strength_overall_away := 3
    strength_attack_home := 3, strength_attack_away := 3
    strength_defence_home := 3, strength_defence_away := 3 }

/-- Gameweek 1 holds one finished fixture and one live
(started-but-not-finished) fixture. -/
def dbC6 : List FixtureRec :=
  [mkF 1 1 true true 1 2 3 3, mkF 2 1 false true 3 4 3 3]

/-- One fixture of team 1 at difficulty 4, unfinished, in gameweek 1. -/
def dbC5W : List FixtureRec := [mkF 1 1 false false 1 2 4 3]

/-- The empty service state. -/
def st0 : SyncState := { store := ⟨[], [], [], []⟩, lastSync := none }

/-- An API interaction in which the teams fetch returns no data (so
`sync_teams` reports failure), the players fetch also returns no data, and
the current-gameweek probe returns a falsy value. -/
def apiC3 : ApiData :=
  { enterOk := true, teams := some [], players := some [], fixtures := some []
    currentGw := some none, gwLive := none }

/-- One external team record. -/
def tdW : TeamData :=
  { id := 1, name := "Alpha", short_name := "ALP", code := 5, strength := 3
    strength_overall_home := 3, strength_overall_away := 3
    strength_attack_home := 3, strength_attack_away := 3
    strength_defence_home := 3, strength_defence_away := 3 }

/-- One external fixture record. -/
def fdW : FixtureData :=
  { id := 1, code := 7, event := 1, finished := false
    finished_provisional := false, kickoff := none, minutes := 0
    provisional_start_time := false, started := false, team_h := 1
    team_a := 2, team_h_score := none, team_a_score := none
    team_h_difficulty := 3, team_a_difficulty := 2, stats := none }

/-- A healthy API interaction carrying one team and one fixture. -/
def apiC7 : ApiData :=
  { enterOk := true, teams := some [tdW], players := some []
    fixtures := some [fdW], currentGw := some (some 1), gwLive := some [] }

/-! ## Lemmas about the list utilities -/

theorem insertByAsc_perm [LinearOrder β] (k : α → β) (a : α) (l : List α) :
    (insertByAsc k a l).Perm (a :: l) := by
  induction l with
  | nil => exact List.Perm.refl _
  | cons b bs ih =>
    simp only [insertByAsc]
    split
    · exact (ih.cons b).trans (List.Perm.swap a b bs)
    · exact List.Perm.refl _

theorem sortByAsc_perm [LinearOrder β] (k : α → β) (l : List α) :
    (sortByAsc k l).Perm l := by
  induction l with
  | nil => exact List.Perm.refl _
  | cons a as ih => exact (insertByAsc_perm k a _).trans (ih.cons a)

theorem insertByAsc_pairwise [LinearOrder β] (k : α → β) (a : α) (l : List α)
    (h : l.Pairwise (fun x y => k x ≤ k y)) :
    (insertByAsc k a l).Pairwise (fun x y => k x ≤ k y) := by
  induction l with
  | nil => simp [insertByAsc]
  | cons b bs ih =>
    rw [List.pairwise_cons] at h
    simp only [insertByAsc]
    split
    · next hba =>
      refine List.pairwise_cons.mpr ⟨fun x hx => ?_, ih h.2⟩
      rcases List.mem_cons.mp ((insertByAsc_perm k a bs).mem_iff.mp hx) with hxa | hxbs
      · exact hxa ▸ le_of_lt hba
      · exact h.1 x hxbs
    · next hab =>
      refine List.pairwise_cons.mpr ⟨fun x hx => ?_, List.pairwise_cons.mpr h⟩
      rcases List.mem_cons.mp hx with hxb | hxbs
      · exact hxb ▸ not_lt.mp hab
      · exact le_trans (not_lt.mp hab) (h.1 x hxbs)

theorem sortByAsc_pairwise [LinearOrder β] (k : α → β) (l : List α) :
    (sortByAsc k l).Pairwise (fun x y => k x ≤ k y) := by
  induction l with
  | nil => simp [sortByAsc]
  | cons a as ih => exact insertByAsc_pairwise k a _ ih

theorem insertByDesc_perm [LinearOrder β] (k : α → β) (a : α) (l : List α) :
    (insertByDesc k a l).Perm (a :: l) := by
  induction l with
  | nil => exact List.Perm.refl _
  | cons b bs ih =>
    simp only [insertByDesc]
    split
    · exact (ih.cons b).trans (List.Perm.swap a b bs)
    · exact List.Perm.refl _

theorem sortByDesc_perm [LinearOrder β] (k : α → β) (l : List α) :
    (sortByDesc k l).Perm l := by
  induction l with
  | nil => exact List.Perm.refl _
  | cons a as ih => exact (insertByDesc_perm k a _).trans (ih.cons a)

theorem insertByDesc_pairwise [LinearOrder β] (k : α → β) (a : α) (l : List α)
    (h : l.Pairwise (fun x y => k y ≤ k x)) :
    (insertByDesc k a l).Pairwise (fun x y => k y ≤ k x) := by
  induction l with
  | nil => simp [insertByDesc]
  | cons b bs ih =>
    rw [List.pairwise_cons] at h
    simp only [insertByDesc]
    split
    · next hab =>
      refine List.pairwise_cons.mpr ⟨fun x hx => ?_, ih h.2⟩
      rcases List.mem_cons.mp ((insertByDesc_perm k a bs).mem_iff.mp hx) with hxa | hxbs
      · exact hxa ▸ le_of_lt hab
      · exact h.1 x hxbs
    · next hba =>
      refine List.pairwise_cons.mpr ⟨fun x hx => ?_, List.pairwise_cons.mpr h⟩
      rcases List.mem_cons.mp hx with hxb | hxbs
      · exact hxb ▸ not_lt.mp hba
      · exact le_trans (h.1 x hxbs) (not_lt.mp hba)

theorem sortByDesc_pairwise [LinearOrder β] (k : α → β) (l : List α) :
    (sortByDesc k l).Pairwise (fun x y => k y ≤ k x) := by
  induction l with
  | nil => simp [sortByDesc]
  | cons a as ih => exact insertByDesc_pairwise k a _ ih

theorem insertByDesc_map [LinearOrder β] (k : α → β) (g : α → α)
    (hk : ∀ x, k (g x) = k x) (a : α) (l : List α) :
    insertByDesc k (g a) (l.map g) = (insertByDesc k a l).map g := by
  induction l with
  | nil => simp [insertByDesc]
  | cons b bs ih =>
    simp only [List.map_cons, insertByDesc, hk]
    split
    · simp [ih]
    · simp

theorem sortByDesc_map [LinearOrder β] (k : α → β) (g : α → α)
    (hk : ∀ x, k (g x) = k x) (l : List α) :
    sortByDesc k (l.map g) = (sortByDesc k l).map g := by
  induction l with
  | nil => simp [sortByDesc]
  | cons a as ih => simp only [List.map_cons, sortByDesc, ih,
      insertByDesc_map k g hk]

theorem minByFirst_mem [LinearOrder β] (k : α → β) (a : α) (l : List α) :
    minByFirst k a l ∈ a :: l := by
  induction l generalizing a with
  | nil => simp [minByFirst]
  | cons b bs ih =>
    simp only [minByFirst]
    split
    · exact List.mem_cons.mpr (Or.inr (ih b))
    · rcases List.mem_cons.mp (ih a) with h | h
      · exact List.mem_cons.mpr (Or.inl h)
      · exact List.mem_cons.mpr (Or.inr (List.mem_cons.mpr (Or.inr h)))

theorem minByFirst_map [LinearOrder β] (k : α → β) (g : α → α)
    (hk : ∀ x, k (g x) = k x) (a : α) (l : List α) :
    minByFirst k (g a) (l.map g) = g (minByFirst k a l) := by
  induction l generalizing a with
  | nil => simp [minByFirst]
  | cons b bs ih =>
    simp only [List.map_cons, minByFirst, hk]
    split
    · exact ih b
    · exact ih a

theorem updateFirst_eq_self (p : α → Bool) (f : α → α) (l : List α)
    (h : ∀ r, l.find? p = some r → f r = r) : updateFirst p f l = l := by
  induction l with
  | nil => rfl
  | cons a as ih =>
    simp only [updateFirst]
    by_cases hp : p a
    · rw [if_pos hp, h a (by rw [List.find?_cons_of_pos _ hp])]
    · rw [if_neg hp,
        ih (fun r hr => h r (by rw [List.find?_cons_of_neg _ (by simpa using hp)]; exact hr))]

theorem map_updateFirst (key : α → κ) (p : α → Bool) (f : α → α) (l : List α)
    (hf : ∀ a, key (f a) = key a) :
    (updateFirst p f l).map key = l.map key := by
  induction l with
  | nil => rfl
  | cons a as ih =>
    simp only [updateFirst]
    by_cases hp : p a
    · rw [if_pos hp]; simp [hf]
    · rw [if_neg hp]; simp [ih]

theorem find?_updateFirst_of_neg (p q : α → Bool) (f : α → α) (l : List α)
    (hpq : ∀ a, p a = true → q a = false) (hf : ∀ a, q (f a) = q a) :
    (updateFirst p f l).find? q = l.find? q := by
  induction l with
  | nil => rfl
  | cons a as ih =>
    simp only [updateFirst]
    by_cases hp : p a
    · have hqa : q a = false := hpq a hp
      have hqfa : q (f a) = false := by rw [hf]; exact hqa
      rw [if_pos hp, List.find?_cons_of_neg _ (by simp [hqfa]),
        List.find?_cons_of_neg _ (by simp [hqa])]
    · by_cases hq : q a
      · rw [if_neg hp, List.find?_cons_of_pos _ hq, List.find?_cons_of_pos _ hq]
      · rw [if_neg hp, List.find?_cons_of_neg _ (by simpa using hq),
          List.find?_cons_of_neg _ (by simpa using hq), ih]

theorem find?_updateFirst_self (p : α → Bool) (f : α → α) (l : List α) (r : α)
    (h : l.find? p = some r) (hfr : p (f r) = true) :
    (updateFirst p f l).find? p = some (f r) := by
  induction l with
  | nil => simp [List.find?] at h
  | cons a as ih =>
    by_cases hp : p a
    · rw [List.find?_cons_of_pos _ hp] at h
      obtain rfl : a = r := by injection h
      simp only [updateFirst]
      rw [if_pos hp]
      exact List.find?_cons_of_pos _ hfr
    · rw [List.find?_cons_of_neg _ (by simpa using hp)] at h
      simp only [updateFirst]
      rw [if_neg hp, List.find?_cons_of_neg _ (by simpa using hp)]
      exact ih h

/-! ## Lemmas about the generic upsert -/

section UpsertLemmas

variable {κ σ δ : Type} [DecidableEq κ]
variable (keyR : σ → κ) (keyD : δ → κ) (create : δ → σ) (update : σ → δ → σ)

theorem keyIs_true {keyR : σ → κ} {c : κ} {r : σ} (h : keyIs keyR c r = true) :
    keyR r = c := by simpa [keyIs] using h

theorem keyIs_of_eq {keyR : σ → κ} {c : κ} {r : σ} (h : keyR r = c) :
    keyIs keyR c r = true := by simp [keyIs, h]

/-- After upserting `d`, the first record carrying `d`'s key is a fixed
point of updating with `d` (it is either freshly created from `d` or was
just overwritten with `d`'s values). -/
theorem find?_upsert_self
    (hUK : ∀ r d, keyR (update r d) = keyR r)
    (hCK : ∀ d, keyR (create d) = keyD d)
    (hUU : ∀ r d, update (update r d) d = update r d)
    (hUC : ∀ d, update (create d) d = create d)
    (s : List σ) (d : δ) :
    ∃ r, (upsert keyR keyD create update s d).find? (keyIs keyR (keyD d)) = some r ∧
      update r d = r := by
  unfold upsert
  by_cases h : s.any (keyIs keyR (keyD d))
  · rw [if_pos h]
    obtain ⟨r0, hr0mem, hr0⟩ := List.any_eq_true.mp h
    obtain ⟨r1, hfind⟩ := Option.isSome_iff_exists.mp
      (List.find?_isSome.mpr ⟨r0, hr0mem, hr0⟩)
    refine ⟨update r1 d, ?_, hUU r1 d⟩
    exact find?_updateFirst_self _ _ _ _ hfind
      (keyIs_of_eq (by rw [hUK]; exact keyIs_true (List.find?_some hfind)))
  · rw [if_neg h]
    have hnone : s.find? (keyIs keyR (keyD d)) = none := by
      rw [List.find?_eq_none]
      intro x hx hpx
      exact h (List.any_eq_true.mpr ⟨x, hx, hpx⟩)
    refine ⟨create d, ?_, hUC d⟩
    rw [List.find?_append, hnone, Option.none_or]
    exact List.find?_cons_of_pos _ (keyIs_of_eq (hCK d))

/-- Upserting a datum with a different key does not change what the store
holds at key `c`. -/
theorem find?_upsert_other
    (hUK : ∀ r d, keyR (update r d) = keyR r)
    (hCK : ∀ d, keyR (create d) = keyD d)
    (s : List σ) (d : δ) (c : κ) (hc : keyD d ≠ c) :
    (upsert keyR keyD create update s d).find? (keyIs keyR c) =
      s.find? (keyIs keyR c) := by
  unfold upsert
  by_cases h : s.any (keyIs keyR (keyD d))
  · rw [if_pos h]
    refine find?_updateFirst_of_neg _ _ _ _ (fun a ha => ?_) (fun a => ?_)
    · have : keyR a = keyD d := keyIs_true ha
      simp [keyIs, this, hc]
    · simp [keyIs, hUK]
  · rw [if_neg h, List.find?_append]
    have hfc : (keyIs keyR c) (create d) = false := by
      simp [keyIs, hCK, hc]
    have hnone : List.find? (keyIs keyR c) [create d] = none := by
      rw [List.find?_cons_of_neg _ (by simp [hfc])]
      rfl
    rw [hnone, Option.or_none]

/-- Syncing a batch whose keys avoid `c` leaves the record at `c` alone. -/
theorem find?_syncStore_other
    (hUK : ∀ r d, keyR (update r d) = keyR r)
    (hCK : ∀ d, keyR (create d) = keyD d)
    (s : List σ) (l : List δ) (c : κ)
    (hc : c ∉ l.map keyD) :
    (syncStore keyR keyD create update s l).find? (keyIs keyR c) =
      s.find? (keyIs keyR c) := by
  induction l generalizing s with
  | nil => rfl
  | cons d rest ih =>
    simp only [List.map_cons, List.mem_cons, not_or] at hc
    rw [show syncStore keyR keyD create update s (d :: rest) =
        syncStore keyR keyD create update (upsert keyR keyD create update s d) rest
      from rfl]
    rw [ih _ hc.2, find?_upsert_other keyR keyD create update hUK hCK _ _ _
      (fun he => hc.1 he.symm)]

/-- After one full pass of the sync over a batch with no duplicate keys,
every datum's record is a fixed point of its own update. -/
theorem find?_syncStore_self
    (hUK : ∀ r d, keyR (update r d) = keyR r)
    (hCK : ∀ d, keyR (create d) = keyD d)
    (hUU : ∀ r d, update (update r d) d = update r d)
    (hUC : ∀ d, update (create d) d = create d)
    (s : List σ) (l : List δ)
    (hl : (l.map keyD).Nodup) :
    ∀ d ∈ l, ∃ r,
      (syncStore keyR keyD create update s l).find? (keyIs keyR (keyD d)) = some r ∧
        update r d = r := by
  induction l generalizing s with
  | nil => intro d hd; cases hd
  | cons d0 rest ih =>
    intro d hd
    simp only [List.map_cons, List.nodup_cons] at hl
    rcases List.mem_cons.mp hd with rfl | hdr
    · obtain ⟨r, hr, hrfix⟩ :=
        find?_upsert_self keyR keyD create update hUK hCK hUU hUC s d
      refine ⟨r, ?_, hrfix⟩
      rw [show syncStore keyR keyD create update s (d :: rest) =
          syncStore keyR keyD create update (upsert keyR keyD create update s d) rest
        from rfl]
      rw [find?_syncStore_other keyR keyD create update hUK hCK _ rest _ hl.1]
      exact hr
    · exact ih _ hl.2 d hdr

/-- A pass in which every datum's record is already a fixed point of its
update is the identity on the store. -/
theorem syncStore_eq_self (s : List σ) (l : List δ)
    (H : ∀ d ∈ l, ∃ r, s.find? (keyIs keyR (keyD d)) = some r ∧ update r d = r) :
    syncStore keyR keyD create update s l = s := by
  induction l with
  | nil => rfl
  | cons d0 rest ih =>
    obtain ⟨r, hfind, hfix⟩ := H d0 (List.mem_cons_self d0 rest)
    have hstep : upsert keyR keyD create update s d0 = s := by
      unfold upsert
      rw [if_pos (List.any_eq_true.mpr
        ⟨r, List.mem_of_find?_eq_some hfind, List.find?_some hfind⟩)]
      exact updateFirst_eq_self _ _ _ (fun x hx => by
        rw [hfind] at hx
        injection hx with hx
        exact hx ▸ hfix)
    rw [show syncStore keyR keyD create update s (d0 :: rest) =
        syncStore keyR keyD create update (upsert keyR keyD create update s d0) rest
      from rfl]
    rw [hstep]
    exact ih (fun d hd => H d (List.mem_cons.mpr (Or.inr hd)))

/-- The sync loop is idempotent on the store for any batch without
duplicate natural keys. -/
theorem syncStore_idem
    (hUK : ∀ r d, keyR (update r d) = keyR r)
    (hCK : ∀ d, keyR (create d) = keyD d)
    (hUU : ∀ r d, update (update r d) d = update r d)
    (hUC : ∀ d, update (create d) d = create d)
    (s : List σ) (l : List δ) (hl : (l.map keyD).Nodup) :
    syncStore keyR keyD create update
      (syncStore keyR keyD create update s l) l =
    syncStore keyR keyD create update s l :=
  syncStore_eq_self keyR keyD create update _ _
    (find?_syncStore_self keyR keyD create update hUK hCK hUU hUC s l hl)

/-- Upserting never creates a second record for an existing key: the
store's key list stays duplicate-free. -/
theorem nodup_keys_upsert
    (hUK : ∀ r d, keyR (update r d) = keyR r)
    (hCK : ∀ d, keyR (create d) = keyD d)
    (s : List σ) (d : δ)
    (hs : (s.map keyR).Nodup) :
    ((upsert keyR keyD create update s d).map keyR).Nodup := by
  unfold upsert
  by_cases h : s.any (keyIs keyR (keyD d))
  · rw [if_pos h, map_updateFirst _ _ _ _ (fun a => hUK a d)]
    exact hs
  · rw [if_neg h, List.map_append]
    simp only [List.map_cons, List.map_nil, hCK]
    rw [List.nodup_append]
    refine ⟨hs, List.nodup_singleton _, fun x hx => ?_⟩
    obtain ⟨r, hrmem, hrk⟩ := List.mem_map.mp hx
    simp only [List.mem_singleton]
    intro hxk
    exact h (List.any_eq_true.mpr ⟨r, hrmem, keyIs_of_eq (by rw [hrk, hxk])⟩)

/-- The whole sync loop preserves key uniqueness of the store. -/
theorem nodup_keys_syncStore
    (hUK : ∀ r d, keyR (update r d) = keyR r)
    (hCK : ∀ d, keyR (create d) = keyD d)
    (s : List σ) (l : List δ)
    (hs : (s.map keyR).Nodup) :
    ((syncStore keyR keyD create update s l).map keyR).Nodup := by
  induction l generalizing s with
  | nil => exact hs
  | cons d rest ih =>
    rw [show syncStore keyR keyD create update s (d :: rest) =
        syncStore keyR keyD create update (upsert keyR keyD create update s d) rest
      from rfl]
    exact ih _ (nodup_keys_upsert keyR keyD create update hUK hCK _ _ hs)

end UpsertLemmas

/-! ## The upsert laws hold for each of the four collections -/

theorem updateTeam_key (r : TeamRec) (d : TeamData) :
    (updateTeam r d).code = r.code := rfl

theorem createTeam_key (d : TeamData) : (createTeam d).code = d.code := rfl

theorem updateTeam_last_write (r : TeamRec) (d : TeamData) :
    updateTeam (updateTeam r d) d = updateTeam r d := rfl

theorem updateTeam_create (d : TeamData) :
    updateTeam (createTeam d) d = createTeam d := rfl

theorem updatePlayer_key (r : PlayerRec) (d : PlayerData) :
    (updatePlayer r d).id = r.id := rfl

theorem createPlayer_key (d : PlayerData) : (createPlayer d).id = d.id := rfl

theorem updatePlayer_last_write (r : PlayerRec) (d : PlayerData) :
    updatePlayer (updatePlayer r d) d = updatePlayer r d := rfl

theorem updatePlayer_create (d : PlayerData) :
    updatePlayer (createPlayer d) d = createPlayer d := rfl

theorem updateFixture_key (r : FixtureRec) (d : FixtureData) :
    (updateFixture r d).code = r.code := by
  unfold updateFixture
  cases d.kickoff <;> rfl

theorem createFixture_key (d : FixtureData) :
    (createFixture d).code = d.code := rfl

theorem updateFixture_last_write (r : FixtureRec) (d : FixtureData) :
    updateFixture (updateFixture r d) d = updateFixture r d := by
  unfold updateFixture
  cases d.kickoff <;> rfl

theorem updateFixture_create (d : FixtureData) :
    updateFixture (createFixture d) d = createFixture d := by
  unfold updateFixture createFixture
  cases d.kickoff <;> rfl

theorem updateStats_key (r : StatsRec) (d : StatsData) :
    ((updateStats r d).player_id, (updateStats r d).gameweek) =
      (r.player_id, r.gameweek) := rfl

theorem createStats_key (gw : ℤ) (d : StatsData) :
    ((createStats gw d).player_id, (createStats gw d).gameweek) =
      (d.player_id, gw) := rfl

theorem updateStats_last_write (r : StatsRec) (d : StatsData) :
    updateStats (updateStats r d) d = updateStats r d := rfl

theorem updateStats_create (gw : ℤ) (d : StatsData) :
    updateStats (createStats gw d) d = createStats gw d := rfl

/-! ## Idempotence of each collection sync -/

theorem syncTeamsStore_idem (s : List TeamRec) (l : List TeamData)
    (hl : (l.map (fun d => d.code)).Nodup) :
    syncTeamsStore (syncTeamsStore s l) l = syncTeamsStore s l :=
  syncStore_idem (fun r : TeamRec => r.code) (fun d : TeamData => d.code)
    createTeam updateTeam
    (fun _ _ => rfl) (fun _ => rfl) (fun _ _ => rfl) (fun _ => rfl) s l hl

theorem syncPlayersStore_idem (s : List PlayerRec) (l : List PlayerData)
    (hl : (l.map (fun d => d.id)).Nodup) :
    syncPlayersStore (syncPlayersStore s l) l = syncPlayersStore s l :=
  syncStore_idem (fun r : PlayerRec => r.id) (fun d : PlayerData => d.id)
    createPlayer updatePlayer
    (fun _ _ => rfl) (fun _ => rfl) (fun _ _ => rfl) (fun _ => rfl) s l hl

theorem syncFixturesStore_idem (s : List FixtureRec) (l : List FixtureData)
    (hl : (l.map (fun d => d.code)).Nodup) :
    syncFixturesStore (syncFixturesStore s l) l = syncFixturesStore s l :=
  syncStore_idem (fun r : FixtureRec => r.code) (fun d : FixtureData => d.code)
    createFixture updateFixture
    updateFixture_key createFixture_key
    updateFixture_last_write updateFixture_create s l hl

theorem syncStatsStore_idem (gw : ℤ) (s : List StatsRec) (l : List StatsData)
    (hl : (l.map (fun d => d.player_id)).Nodup) :
    syncStatsStore gw (syncStatsStore gw s l) l = syncStatsStore gw s l := by
  refine syncStore_idem (fun r : StatsRec => (r.player_id, r.gameweek))
    (fun d : StatsData => (d.player_id, gw)) (createStats gw) updateStats
    updateStats_key (createStats_key gw)
    updateStats_last_write (updateStats_create gw) s l ?_
  have : l.map (fun d => (d.player_id, gw)) =
      (l.map (fun d => d.player_id)).map (fun i => (i, gw)) := by
    simp [List.map_map, Function.comp]
  rw [this]
  exact hl.map (fun a b hab => by injection hab)

theorem syncTeams_idem (s : List TeamRec) (f : Fetched (List TeamData))
    (h : ∀ l, f = some l → (l.map (fun d => d.code)).Nodup) :
    (syncTeams (syncTeams s f).1 f).1 = (syncTeams s f).1 := by
  cases f with
  | none => rfl
  | some l =>
    by_cases he : l.isEmpty
    · simp [syncTeams, he]
    · simp only [syncTeams, he, if_false, Bool.false_eq_true]
      exact syncTeamsStore_idem s l (h l rfl)

theorem syncPlayers_idem (s : List PlayerRec) (f : Fetched (List PlayerData))
    (h : ∀ l, f = some l → (l.map (fun d => d.id)).Nodup) :
    (syncPlayers (syncPlayers s f).1 f).1 = (syncPlayers s f).1 := by
  cases f with
  | none => rfl
  | some l =>
    by_cases he : l.isEmpty
    · simp [syncPlayers, he]
    · simp only [syncPlayers, he, if_false, Bool.false_eq_true]
      exact syncPlayersStore_idem s l (h l rfl)

theorem syncFixtures_idem (s : List FixtureRec) (f : Fetched (List FixtureData))
    (h : ∀ l, f = some l → (l.map (fun d => d.code)).Nodup) :
    (syncFixtures (syncFixtures s f).1 f).1 = (syncFixtures s f).1 := by
  cases f with
  | none => rfl
  | some l =>
    by_cases he : l.isEmpty
    · simp [syncFixtures, he]
    · simp only [syncFixtures, he, if_false, Bool.false_eq_true]
      exact syncFixturesStore_idem s l (h l rfl)

theorem syncGameweekStats_idem (gw : ℤ) (s : List StatsRec)
    (f : Fetched (List StatsData))
    (h : ∀ l, f = some l → (l.map (fun d => d.player_id)).Nodup) :
    (syncGameweekStats gw (syncGameweekStats gw s f).1 f).1 =
      (syncGameweekStats gw s f).1 := by
  cases f with
  | none => rfl
  | some l => exact syncStatsStore_idem gw s l (h l rfl)

theorem syncTeams_nodup (s : List TeamRec) (f : Fetched (List TeamData))
    (hs : (s.map (fun r : TeamRec => r.code)).Nodup) :
    (((syncTeams s f).1).map (fun r : TeamRec => r.code)).Nodup := by
  cases f with
  | none => exact hs
  | some l =>
    by_cases he : l.isEmpty
    · simpa [syncTeams, he] using hs
    · simp only [syncTeams, he, if_false, Bool.false_eq_true]
      exact nodup_keys_syncStore (fun r : TeamRec => r.code)
        (fun d : TeamData => d.code) createTeam updateTeam
        (fun _ _ => rfl) (fun _ => rfl) s l hs

theorem syncFixtures_nodup (s : List FixtureRec) (f : Fetched (List FixtureData))
    (hs : (s.map (fun r : FixtureRec => r.code)).Nodup) :
    (((syncFixtures s f).1).map (fun r : FixtureRec => r.code)).Nodup := by
  cases f with
  | none => exact hs
  | some l =>
    by_cases he : l.isEmpty
    · simpa [syncFixtures, he] using hs
    · simp only [syncFixtures, he, if_false, Bool.false_eq_true]
      exact nodup_keys_syncStore (fun r : FixtureRec => r.code)
        (fun d : FixtureData => d.code) createFixture updateFixture
        updateFixture_key createFixture_key s l hs

/-- Running the full forced sync twice against the same external data
produces the same persisted store as running it once (the in-memory
`last_sync` attribute is not part of the persisted store). -/
theorem syncAllData_store_idem (st : SyncState) (api : ApiData)
    (now now2 interval : ℤ)
    (ht : ∀ l, api.teams = some l → (l.map (fun d : TeamData => d.code)).Nodup)
    (hp : ∀ l, api.players = some l → (l.map (fun d : PlayerData => d.id)).Nodup)
    (hf : ∀ l, api.fixtures = some l → (l.map (fun d : FixtureData => d.code)).Nodup)
    (hg : ∀ l, api.gwLive = some l → (l.map (fun d : StatsData => d.player_id)).Nodup) :
    (syncAllData (syncAllData st api true now interval).1 api true now2 interval).1.store =
      (syncAllData st api true now interval).1.store := by
  cases henter : api.enterOk with
  | false => simp [syncAllData, henter]
  | true =>
    cases hgw : api.currentGw with
    | none =>
        simp only [syncAllData, henter, hgw, Bool.not_true, Bool.false_and,
          Bool.false_eq_true, if_false, Bool.not_false]
        simp only [Store.mk.injEq]
        and_intros <;>
          first
            | exact syncTeams_idem _ _ ht
            | exact syncPlayers_idem _ _ hp
            | exact syncFixtures_idem _ _ hf
            | rfl
            | trivial
    | some gwOpt =>
        cases gwOpt with
        | none =>
            simp only [syncAllData, henter, hgw, Bool.not_true, Bool.false_and,
              Bool.false_eq_true, if_false, Bool.not_false]
            simp only [Store.mk.injEq]
            and_intros <;>
              first
                | exact syncTeams_idem _ _ ht
                | exact syncPlayers_idem _ _ hp
                | exact syncFixtures_idem _ _ hf
                | rfl
                | trivial
        | some gw =>
            by_cases hz : gw = 0
            · simp only [syncAllData, henter, hgw, hz, Bool.not_true,
                Bool.false_and, Bool.false_eq_true, if_false, Bool.not_false,
                if_true, if_pos rfl]
              simp only [Store.mk.injEq]
              and_intros <;>
                first
                  | exact syncTeams_idem _ _ ht
                  | exact syncPlayers_idem _ _ hp
                  | exact syncFixtures_idem _ _ hf
                  | rfl
                  | trivial
            · simp only [syncAllData, henter, hgw, Bool.not_true,
                Bool.false_and, Bool.false_eq_true, if_false, Bool.not_false,
                if_neg hz]
              simp only [Store.mk.injEq]
              and_intros <;>
                first
                  | exact syncTeams_idem _ _ ht
                  | exact syncPlayers_idem _ _ hp
                  | exact syncFixtures_idem _ _ hf
                  | exact syncGameweekStats_idem _ _ _ hg

/-! ## Lemmas about the fixture service -/

theorem foldl_laterOf_event (as : List FixtureRec) (a : FixtureRec) :
    (as.foldl laterOf a).event = (as.map (fun f => f.event)).foldl max a.event := by
  induction as generalizing a with
  | nil => rfl
  | cons x xs ih =>
    simp only [List.foldl_cons, List.map_cons]
    rw [ih]
    congr 1
    unfold laterOf
    by_cases h : a.event < x.event
    · rw [if_pos h, max_eq_right (le_of_lt h)]
    · rw [if_neg h, max_eq_left (not_lt.mp h)]

theorem foldl_latest_some (as : List FixtureRec) (a : FixtureRec) :
    as.foldl (fun acc f =>
      match acc with
      | none => some f
      | some g => if g.event < f.event then some f else some g) (some a) =
    some (as.foldl laterOf a) := by
  induction as generalizing a with
  | nil => rfl
  | cons x xs ih =>
    rw [List.foldl_cons, List.foldl_cons]
    have hstep : (if a.event < x.event then some x else some a) =
        some (laterOf a x) := by
      unfold laterOf
      split <;> rfl
    show List.foldl _ (if a.event < x.event then some x else some a) xs =
      some (List.foldl laterOf (laterOf a x) xs)
    rw [hstep]
    exact ih (laterOf a x)

/-- `latestFinished` returns exactly the maximum `event` among finished
fixtures (as an `Option`). -/
theorem latestFinished_map_event (db : List FixtureRec) :
    (latestFinished db).map (fun f => f.event) =
      ((db.filter (fun f => f.finished)).map (fun f => f.event)).max? := by
  unfold latestFinished
  cases h : db.filter (fun f => f.finished) with
  | nil => rfl
  | cons a as =>
    rw [List.foldl_cons]
    show (as.foldl (fun acc f =>
      match acc with
      | none => some f
      | some g => if g.event < f.event then some f else some g) (some a)).map
        (fun f => f.event) = _
    rw [foldl_latest_some]
    show some ((as.foldl laterOf a).event) =
      some ((as.map (fun f => f.event)).foldl max a.event)
    rw [foldl_laterOf_event]

/-- All control-flow branches of `get_current_gameweek` taken when some
finished fixture exists return the same value `latest_finished.event + 1`;
the started-but-not-finished and kickoff-time probes never change the
result.  So the function computes: one past the highest gameweek carrying
a finished fixture, else 1. -/
theorem getCurrentGameweek_eq (db : List FixtureRec) (now : ℤ) :
    getCurrentGameweek db now =
      some (match ((db.filter (fun f => f.finished)).map (fun f => f.event)).max? with
            | some m => m + 1
            | none => 1) := by
  unfold getCurrentGameweek
  cases hlf : latestFinished db with
  | none =>
      have hmax : ((db.filter (fun f => f.finished)).map (fun f => f.event)).max? = none := by
        have h := latestFinished_map_event db
        rw [hlf] at h
        exact h.symm
      rw [hmax]
  | some lf =>
      have hmax : ((db.filter (fun f => f.finished)).map (fun f => f.event)).max? =
          some lf.event := by
        have h := latestFinished_map_event db
        rw [hlf] at h
        exact h.symm
      rw [hmax]
      show (match (db.filter (fun f =>
          f.event == lf.event + 1 && f.started && !f.finished)).head? with
        | some _ => some (lf.event + 1)
        | none =>
          match (db.filter (fun f => f.event == lf.event + 1)).head? with
          | some f =>
            match f.kickoff_time with
            | some k => if k ≤ now then some (lf.event + 1) else some (lf.event + 1)
            | none => some (lf.event + 1)
          | none => some (lf.event + 1)) = some (lf.event + 1)
      cases (db.filter (fun f =>
          f.event == lf.event + 1 && f.started && !f.finished)).head? with
      | some f => rfl
      | none =>
        cases (db.filter (fun f => f.event == lf.event + 1)).head? with
        | some f =>
          show (match f.kickoff_time with
            | some k => if k ≤ now then some (lf.event + 1) else some (lf.event + 1)
            | none => some (lf.event + 1)) = some (lf.event + 1)
          cases f.kickoff_time with
          | some k => exact ite_self _
          | none => rfl
        | none => rfl

/-! ## Lemmas about the squad builder -/

theorem pickAffordable_le (avail : List Player) (pb rem mp : ℚ) (p : Player)
    (h : pickAffordable avail pb rem mp = some p) : p.price ≤ rem := by
  unfold pickAffordable at h
  cases hf : avail.find? (fun q => decide (q.price ≤ min pb (min rem mp))) with
  | some q =>
      rw [hf] at h
      injection h with h
      subst h
      have hq : q.price ≤ min pb (min rem mp) := by
        simpa using List.find?_some hf
      exact le_trans hq (le_trans (min_le_right _ _) (min_le_left _ _))
  | none =>
      rw [hf] at h
      cases haff : avail.filter (fun q => decide (q.price ≤ rem)) with
      | nil => rw [haff] at h; cases h
      | cons a as =>
          rw [haff] at h
          injection h with h
          subst h
          have hmem : minByFirst (fun q : Player => q.price) a as ∈
              avail.filter (fun q => decide (q.price ≤ rem)) := by
            rw [haff]
            exact minByFirst_mem _ a as
          simpa using List.of_mem_filter hmem

theorem pickAffordable_mem (avail : List Player) (pb rem mp : ℚ) (p : Player)
    (h : pickAffordable avail pb rem mp = some p) : p ∈ avail := by
  unfold pickAffordable at h
  cases hf : avail.find? (fun q => decide (q.price ≤ min pb (min rem mp))) with
  | some q =>
      rw [hf] at h
      injection h with h
      subst h
      exact List.mem_of_find?_eq_some hf
  | none =>
      rw [hf] at h
      cases haff : avail.filter (fun q => decide (q.price ≤ rem)) with
      | nil => rw [haff] at h; cases h
      | cons a as =>
          rw [haff] at h
          injection h with h
          subst h
          have hmem : minByFirst (fun q : Player => q.price) a as ∈
              avail.filter (fun q => decide (q.price ≤ rem)) := by
            rw [haff]
            exact minByFirst_mem _ a as
          exact List.mem_of_mem_filter hmem

/-- Accounting invariant of the selection loop: every selection deducts
exactly its price from the remaining budget, the remaining budget never
goes negative, and at most `n` entries — all labelled with the loop's
position — are appended. -/
theorem selectLoop_spec (pos : String) (mp pb : ℚ) :
    ∀ (n : ℕ) (avail : List Player) (sel : List SelectedPlayer) (rem : ℚ),
    (selectLoop pos mp pb n avail sel rem).2 +
        squadCost (selectLoop pos mp pb n avail sel rem).1 = rem + squadCost sel ∧
    (0 ≤ rem → 0 ≤ (selectLoop pos mp pb n avail sel rem).2) ∧
    ∃ extra, (selectLoop pos mp pb n avail sel rem).1 = sel ++ extra ∧
      extra.length ≤ n ∧ ∀ e ∈ extra, e.position = pos := by
  intro n
  induction n with
  | zero =>
      intro avail sel rem
      exact ⟨rfl, fun h => h, [], by simp [selectLoop], by simp, by simp⟩
  | succ n ih =>
      intro avail sel rem
      simp only [selectLoop]
      by_cases he : avail.isEmpty
      · rw [if_pos he]
        exact ⟨rfl, fun h => h, [], by simp, by simp, by simp⟩
      · rw [if_neg he]
        split
        · next p hp =>
            have hle := pickAffordable_le avail pb rem mp p hp
            obtain ⟨hacc, hpos, extra, hext, hlen, hposes⟩ :=
              ih (avail.erase p) (sel ++ [formatSelected p pos]) (rem - p.price)
            refine ⟨?_, ?_, formatSelected p pos :: extra, ?_, ?_, ?_⟩
            · rw [hacc]
              simp only [squadCost, List.map_append, List.map_cons, List.map_nil,
                List.sum_append, List.sum_cons, List.sum_nil, formatSelected]
              ring
            · intro h0
              exact hpos (by linarith)
            · rw [hext, List.append_assoc]
              rfl
            · simpa using Nat.succ_le_succ hlen
            · intro e hee
              rcases List.mem_cons.mp hee with rfl | hee2
              · rfl
              · exact hposes e hee2
        · next hp =>
            obtain ⟨hacc, hpos, extra, hext, hlen, hposes⟩ := ih avail sel rem
            exact ⟨hacc, hpos, extra, hext, le_trans hlen (Nat.le_succ n), hposes⟩

/-- The one-position step keeps the accounting invariant. -/
theorem buildStep_spec (players : List Player) (acc : List SelectedPlayer × ℚ)
    (pos : String) (count : ℕ) (maxPrice : ℚ) :
    (buildStep players acc pos count maxPrice).2 +
        squadCost (buildStep players acc pos count maxPrice).1 =
        acc.2 + squadCost acc.1 ∧
    (0 ≤ acc.2 → 0 ≤ (buildStep players acc pos count maxPrice).2) ∧
    ∃ extra, (buildStep players acc pos count maxPrice).1 = acc.1 ++ extra ∧
      extra.length ≤ count ∧ ∀ e ∈ extra, e.position = pos :=
  selectLoop_spec pos maxPrice (acc.2 * positionBudgetRatio pos) count _ acc.1 acc.2

/-! ## The ranking and the builder never read `status` -/

/-- Erasing a mapped element commutes with mapping when the map is
injective on the list. -/
theorem map_erase_of_injOn (g : Player → Player) (l : List Player) (a : Player)
    (ha : a ∈ l) (hinj : ∀ x ∈ l, ∀ y ∈ l, g x = g y → x = y) :
    (l.map g).erase (g a) = (l.erase a).map g := by
  induction l with
  | nil => cases ha
  | cons b bs ih =>
    by_cases hb : b = a
    · subst hb
      rw [List.map_cons, List.erase_cons_head, List.erase_cons_head]
    · have ha2 : a ∈ bs := by
        rcases List.mem_cons.mp ha with h | h
        · exact absurd h.symm hb
        · exact h
      have hgba : ¬ (g b = g a) := fun he =>
        hb (hinj b (List.mem_cons_self b bs) a ha he)
      rw [List.map_cons, List.erase_cons_tail (by simpa using hgba),
        List.erase_cons_tail (by simpa using hb), List.map_cons,
        ih ha2 (fun x hx y hy => hinj x (List.mem_cons.mpr (Or.inr hx)) y
          (List.mem_cons.mpr (Or.inr hy)))]

theorem pickAffordable_map (f : Player → String) (avail : List Player)
    (pb rem mp : ℚ) :
    pickAffordable (avail.map (setStatus f)) pb rem mp =
      (pickAffordable avail pb rem mp).map (setStatus f) := by
  unfold pickAffordable
  rw [List.find?_map]
  show (match (avail.find? ((fun q : Player =>
      decide (q.price ≤ min pb (min rem mp))) ∘ setStatus f)).map (setStatus f) with
    | some p => some p
    | none =>
      match (avail.map (setStatus f)).filter
          (fun q : Player => decide (q.price ≤ rem)) with
      | [] => none
      | a :: as => some (minByFirst (fun q : Player => q.price) a as)) = _
  have hcomp : ((fun q : Player => decide (q.price ≤ min pb (min rem mp))) ∘
      setStatus f) = (fun q : Player => decide (q.price ≤ min pb (min rem mp))) := rfl
  rw [hcomp]
  cases avail.find? (fun q : Player => decide (q.price ≤ min pb (min rem mp))) with
  | some p => rfl
  | none =>
    rw [List.filter_map]
    have hcomp2 : ((fun q : Player => decide (q.price ≤ rem)) ∘ setStatus f) =
        (fun q : Player => decide (q.price ≤ rem)) := rfl
    rw [hcomp2]
    cases avail.filter (fun q : Player => decide (q.price ≤ rem)) with
    | nil => rfl
    | cons a as =>
      show some (minByFirst (fun q : Player => q.price) (setStatus f a)
          (as.map (setStatus f))) = _
      rw [minByFirst_map (fun q : Player => q.price) (setStatus f) (fun _ => rfl)]
      rfl

theorem selectLoop_map (f : Player → String) (pos : String) (mp pb : ℚ) :
    ∀ (n : ℕ) (avail : List Player) (sel : List SelectedPlayer) (rem : ℚ),
    (∀ x ∈ avail, ∀ y ∈ avail, setStatus f x = setStatus f y → x = y) →
    selectLoop pos mp pb n (avail.map (setStatus f)) sel rem =
      selectLoop pos mp pb n avail sel rem := by
  intro n
  induction n with
  | zero => intro avail sel rem _; rfl
  | succ n ih =>
    intro avail sel rem hinj
    simp only [selectLoop]
    have hemp : (avail.map (setStatus f)).isEmpty = avail.isEmpty := by
      cases avail <;> rfl
    rw [hemp]
    by_cases he : avail.isEmpty
    · rw [if_pos he, if_pos he]
    · rw [if_neg he, if_neg he, pickAffordable_map]
      cases hp : pickAffordable avail pb rem mp with
      | none => exact ih avail sel rem hinj
      | some p =>
          have hpm := pickAffordable_mem avail pb rem mp p hp
          show selectLoop pos mp pb n
              ((avail.map (setStatus f)).erase (setStatus f p))
              (sel ++ [formatSelected (setStatus f p) pos])
              (rem - (setStatus f p).price) = _
          rw [map_erase_of_injOn (setStatus f) avail p hpm hinj]
          exact ih (avail.erase p) (sel ++ [formatSelected p pos]) (rem - p.price)
            (fun x hx y hy => hinj x (List.mem_of_mem_erase hx) y
              (List.mem_of_mem_erase hy))

theorem buildStep_map (f : Player → String) (players : List Player)
    (acc : List SelectedPlayer × ℚ) (pos : String) (count : ℕ) (maxPrice : ℚ)
    (hinj : ∀ x ∈ players, ∀ y ∈ players, setStatus f x = setStatus f y → x = y) :
    buildStep (players.map (setStatus f)) acc pos count maxPrice =
      buildStep players acc pos count maxPrice := by
  unfold buildStep
  have hfil : (players.map (setStatus f)).filter (fun p => p.position == pos) =
      (players.filter (fun p => p.position == pos)).map (setStatus f) := by
    rw [List.filter_map]
    rfl
  rw [hfil, sortByDesc_map valueScoreBuilder (setStatus f) (fun _ => rfl)]
  refine selectLoop_map f pos maxPrice _ count _ acc.1 acc.2 (fun x hx y hy => ?_)
  have hx2 : x ∈ players :=
    List.mem_of_mem_filter ((sortByDesc_perm valueScoreBuilder _).mem_iff.mp hx)
  have hy2 : y ∈ players :=
    List.mem_of_mem_filter ((sortByDesc_perm valueScoreBuilder _).mem_iff.mp hy)
  exact hinj x hx2 y hy2

/-- The deterministic squad builder is invariant under any reassignment of
availability statuses (it never reads `status`), provided players are
distinguishable by name. -/
theorem buildBudgetAwareSquad_map (f : Player → String) (players : List Player)
    (budget : ℚ)
    (hinj : ∀ x ∈ players, ∀ y ∈ players, setStatus f x = setStatus f y → x = y) :
    buildBudgetAwareSquad (players.map (setStatus f)) budget =
      buildBudgetAwareSquad players budget := by
  show (buildStep (players.map (setStatus f))
      (buildStep (players.map (setStatus f))
        (buildStep (players.map (setStatus f))
          (buildStep (players.map (setStatus f)) ([], budget) "GK" 2
            (min 6 (budget * 6 / 100)))
          "DEF" 5 (min 8 (budget * 8 / 100)))
        "MID" 5 (min 15 (budget * 15 / 100)))
      "FWD" 3 (min 15 (budget * 15 / 100))).1 =
    (buildStep players
      (buildStep players
        (buildStep players
          (buildStep players ([], budget) "GK" 2 (min 6 (budget * 6 / 100)))
          "DEF" 5 (min 8 (budget * 8 / 100)))
        "MID" 5 (min 15 (budget * 15 / 100)))
      "FWD" 3 (min 15 (budget * 15 / 100))).1
  rw [buildStep_map f players _ _ _ _ hinj, buildStep_map f players _ _ _ _ hinj,
    buildStep_map f players _ _ _ _ hinj, buildStep_map f players _ _ _ _ hinj]

/-- The value-score shortlist is invariant under status reassignment: the
output buckets are the original buckets with the same reassignment applied
(inclusion among the top 20 never depends on `status`). -/
theorem getTopPlayersByPosition_map (f : Player → String) (players : List Player) :
    getTopPlayersByPosition (players.map (setStatus f)) =
      mapTop (setStatus f) (getTopPlayersByPosition players) := by
  unfold getTopPlayersByPosition mapTop
  have hb : ∀ pos : String,
      ((sortByDesc valueScoreTop ((players.map (setStatus f)).filter
        (fun p => p.position == pos))).take 20) =
      ((sortByDesc valueScoreTop (players.filter
        (fun p => p.position == pos))).take 20).map (setStatus f) := by
    intro pos
    rw [show (players.map (setStatus f)).filter (fun p => p.position == pos) =
        (players.filter (fun p => p.position == pos)).map (setStatus f) from by
      rw [List.filter_map]; rfl]
    rw [sortByDesc_map valueScoreTop (setStatus f) (fun _ => rfl), List.map_take]
  simp only [hb]

/-! ## Lemmas about the difficulty report -/

theorem roundHalfEven_intCast (n : ℤ) : roundHalfEven (n : ℚ) = n := by
  unfold roundHalfEven
  rw [Int.floor_intCast]
  norm_num

theorem round2_three : round2 3 = 3 := by
  unfold round2
  rw [show ((3:ℚ) * 100) = ((300:ℤ):ℚ) by norm_num, roundHalfEven_intCast]
  norm_num

/-- The fixture entries of a team's report are sorted by gameweek. -/
theorem difficultyForTeam_sorted (db : List FixtureRec) (gw horizon : ℤ)
    (team : TeamRec) :
    (difficultyForTeam db gw horizon team).fixtures.Pairwise
      (fun a b => a.gameweek ≤ b.gameweek) := by
  unfold difficultyForTeam
  refine List.Pairwise.map _ (fun a b h => ?_) (sortByAsc_pairwise _ _)
  exact h

/-- Membership in a team's report: exactly the unfinished fixtures of the
team whose gameweek lies in the `[gw, gw + horizon - 1]` window, with the
difficulty of the team's home/away role. -/
theorem difficultyForTeam_mem (db : List FixtureRec) (gw horizon : ℤ)
    (team : TeamRec) (e : FixtureEntry) :
    e ∈ (difficultyForTeam db gw horizon team).fixtures ↔
      ∃ f ∈ db, (f.team_h_id = team.id ∨ f.team_a_id = team.id) ∧
        gw ≤ f.event ∧ f.event ≤ gw + horizon - 1 ∧ f.finished = false ∧
        e = teamFixtureEntry team.id f := by
  unfold difficultyForTeam relevantFixtures
  rw [List.mem_map]
  constructor
  · rintro ⟨f, hf, rfl⟩
    have hf2 := (sortByAsc_perm (fun f : FixtureRec => f.event) _).mem_iff.mp hf
    have hmem := List.mem_of_mem_filter hf2
    have hpred := List.of_mem_filter hf2
    simp only [Bool.and_eq_true, Bool.or_eq_true, beq_iff_eq, decide_eq_true_eq,
      Bool.not_eq_true'] at hpred
    exact ⟨f, hmem, hpred.1.1.1, hpred.1.1.2, hpred.1.2, hpred.2, rfl⟩
  · rintro ⟨f, hmem, hrole, hlo, hhi, hfin, rfl⟩
    refine ⟨f, ?_, rfl⟩
    refine (sortByAsc_perm (fun f : FixtureRec => f.event) _).mem_iff.mpr ?_
    refine List.mem_filter.mpr ⟨hmem, ?_⟩
    simp only [Bool.and_eq_true, Bool.or_eq_true, beq_iff_eq, decide_eq_true_eq,
      Bool.not_eq_true']
    exact ⟨⟨⟨hrole, hlo⟩, hhi⟩, hfin⟩

/-- Definitional shape of the reported average. -/
theorem difficultyForTeam_avg_def (db : List FixtureRec) (gw horizon : ℤ)
    (team : TeamRec) :
    (difficultyForTeam db gw horizon team).average_difficulty =
      round2 (if (difficultyForTeam db gw horizon team).fixtures.isEmpty then 3
        else (((((difficultyForTeam db gw horizon team).fixtures.map
            (fun e => e.difficulty)).sum : ℤ) : ℚ)) /
          (difficultyForTeam db gw horizon team).fixtures.length) := rfl

/-- The reported average: `3.0` on an empty fixture list, else the mean of
the role difficulties rounded to two decimals. -/
theorem difficultyForTeam_avg (db : List FixtureRec) (gw horizon : ℤ)
    (team : TeamRec) :
    ((difficultyForTeam db gw horizon team).fixtures = [] →
      (difficultyForTeam db gw horizon team).average_difficulty = 3) ∧
    ((difficultyForTeam db gw horizon team).fixtures ≠ [] →
      (difficultyForTeam db gw horizon team).average_difficulty =
        round2 (((((difficultyForTeam db gw horizon team).fixtures.map
            (fun e => e.difficulty)).sum : ℤ) : ℚ) /
          (difficultyForTeam db gw horizon team).fixtures.length)) := by
  constructor
  · intro h
    rw [difficultyForTeam_avg_def, h]
    simp only [List.isEmpty_nil, if_true]
    exact round2_three
  · intro h
    rw [difficultyForTeam_avg_def,
      if_neg (by simpa [List.isEmpty_iff] using h)]

/-! ## Lemmas about the transfer advisor -/

theorem transferLoop_spec (allPlayers : List Player)
    (fixtures : List FixtureInfo) (budget : ℚ) (gw : ℕ) :
    ∀ (ups : List Player) (acc : List Transfer) (total : ℚ),
    acc.map (fun t => t.priority) = List.range' 1 acc.length →
    (∀ t ∈ acc, t.expected_gain = calcExpectedGain t.outPlayer t.inPlayer gw) →
    ((transferLoop allPlayers fixtures budget gw ups acc total).1.map
        (fun t => t.priority) =
      List.range' 1 (transferLoop allPlayers fixtures budget gw ups acc total).1.length) ∧
    (∀ t ∈ (transferLoop allPlayers fixtures budget gw ups acc total).1,
      t.expected_gain = calcExpectedGain t.outPlayer t.inPlayer gw) := by
  intro ups
  induction ups with
  | nil => intro acc total h1 h2; exact ⟨h1, h2⟩
  | cons u us ih =>
    intro acc total h1 h2
    simp only [transferLoop]
    split
    · next hl => exact ih acc total h1 h2
    · next best rest hl =>
      by_cases hb : total + (best.price - u.price) ≤ budget
      · rw [if_pos hb]
        refine ih _ _ ?_ ?_
        · rw [List.map_append, h1, List.length_append]
          simp [List.range'_concat, Nat.add_comm]
        · intro t ht
          rcases List.mem_append.mp ht with h | h
          · exact h2 t h
          · rw [List.mem_singleton.mp h]
      · rw [if_neg hb]
        exact ih acc total h1 h2

theorem countPos_append (pos : String) (l1 l2 : List SelectedPlayer) :
    countPos pos (l1 ++ l2) = countPos pos l1 + countPos pos l2 := by
  simp [countPos, List.filter_append]

theorem countPos_le_length (pos : String) (l : List SelectedPlayer) :
    countPos pos l ≤ l.length :=
  List.length_filter_le _ _

theorem countPos_eq_zero (pos pos2 : String) (h : pos2 ≠ pos)
    (l : List SelectedPlayer) (hl : ∀ e ∈ l, e.position = pos2) :
    countPos pos l = 0 := by
  unfold countPos
  rw [List.filter_eq_nil_iff.mpr (fun e he => by simp [hl e he, h])]
  rfl

theorem squadCost_nil : squadCost [] = 0 := rfl

/-- The persisted `teams` / `fixtures` components of a forced
`sync_all_data` call, by control path. -/
theorem syncAllData_store_components (st : SyncState) (api : ApiData)
    (now interval : ℤ) :
    ((syncAllData st api true now interval).1.store.teams =
      if api.enterOk then (syncTeams st.store.teams api.teams).1
      else st.store.teams) ∧
    ((syncAllData st api true now interval).1.store.fixtures =
      if api.enterOk then (syncFixtures st.store.fixtures api.fixtures).1
      else st.store.fixtures) := by
  cases henter : api.enterOk with
  | false => simp [syncAllData, henter]
  | true =>
    cases hgw : api.currentGw with
    | none => simp [syncAllData, henter, hgw]
    | some gwOpt =>
      cases gwOpt with
      | none => simp [syncAllData, henter, hgw]
      | some gw =>
        by_cases hz : gw = 0 <;> simp [syncAllData, henter, hgw, hz]

/-! ## The claims -/

set_option maxRecDepth 8000 in
/-- Claim C1, as stated, is false of the code: a player whose availability
status is not `"a"` (available) is *not* excluded from the ranking or from
the squad builder's output.  Here two injured (`status = "i"`) midfielders
with high historical points appear both in the value-score shortlist and
in the built squad. -/
theorem C1_counterexample :
    injMid1.status = "i" ∧ injMid2.status = "i" ∧
    injMid1 ∈ (getTopPlayersByPosition [injMid1, injMid2]).mf ∧
    ((buildBudgetAwareSquad [injMid1, injMid2] 100).map
      (fun e => e.player_name)) = ["inj1", "inj2"] := by
  with_unfolding_all decide

/-- Claim C1 (amended): availability status has *no effect at all* on the
deterministic ranking and squad building — neither exclusion nor
down-weighting.  Reassigning every status arbitrarily leaves the built
squad unchanged and maps the shortlist buckets pointwise, for any pool
whose player names are distinct. -/
theorem C1_status_ignored (players : List Player) (budget : ℚ)
    (f : Player → String)
    (hnames : (players.map (fun p => p.name)).Nodup) :
    buildBudgetAwareSquad (players.map (setStatus f)) budget =
      buildBudgetAwareSquad players budget ∧
    getTopPlayersByPosition (players.map (setStatus f)) =
      mapTop (setStatus f) (getTopPlayersByPosition players) := by
  refine ⟨buildBudgetAwareSquad_map f players budget ?_,
    getTopPlayersByPosition_map f players⟩
  intro x hx y hy hxy
  have hn := congrArg Player.name hxy
  exact List.inj_on_of_nodup_map hnames hx hy hn

/-- Witness for C1 (amended) at the two-injured-player pool, marking every
player available. -/
theorem C1_status_ignored_witness :
    buildBudgetAwareSquad ([injMid1, injMid2].map (setStatus (fun _ => "a"))) 100 =
      buildBudgetAwareSquad [injMid1, injMid2] 100 ∧
    getTopPlayersByPosition ([injMid1, injMid2].map (setStatus (fun _ => "a"))) =
      mapTop (setStatus (fun _ => "a")) (getTopPlayersByPosition [injMid1, injMid2]) :=
  C1_status_ignored [injMid1, injMid2] 100 (fun _ => "a") (by
    with_unfolding_all decide)

set_option maxRecDepth 8000 in
/-- Claim C2: the spec (and the LLM prompt in `ai_service.py`, line 211,
"Maximum 3 players from any team") requires at most 3 players per club,
but `_build_budget_aware_squad` enforces no per-team cap: on `poolC2`
(budget 100) it selects all five defenders of club `"X"`. -/
theorem C2_team_cap_violated :
    ((buildBudgetAwareSquad poolC2 100).filter (fun e => e.team == "X")).length = 5 ∧
    ¬ ((buildBudgetAwareSquad poolC2 100).filter (fun e => e.team == "X")).length ≤ 3 := by
  with_unfolding_all decide

/-- Claim C3, as stated, is false: `sync_all_data` ignores the boolean
results of the per-collection syncs.  With a teams fetch returning no data
(`sync_teams` reports failure) the overall call still returns `True`. -/
theorem C3_counterexample :
    (syncAllData st0 apiC3 true 0 6).2 = true ∧
    (syncTeams st0.store.teams apiC3.teams).2 = false := by
  constructor
  · rfl
  · rfl

/-- Claim C3 (amended): the overall result of `sync_all_data` does not
depend on any per-collection outcome.  It is `True` exactly when the call
is skipped as fresh, or when the API context is entered successfully and
the bare `get_current_gameweek` probe (the only fetch outside the
per-collection guards) does not raise. -/
theorem C3_result_characterization (st : SyncState) (api : ApiData)
    (force : Bool) (now interval : ℤ) :
    (syncAllData st api force now interval).2 = true ↔
      ((!force && syncIsFresh st.lastSync now interval) = true ∨
        (api.enterOk = true ∧ api.currentGw ≠ none)) := by
  unfold syncAllData
  by_cases h1 : (!force && syncIsFresh st.lastSync now interval) = true
  · rw [if_pos h1]
    simp [h1]
  · rw [if_neg h1]
    by_cases h2 : api.enterOk
    · cases hgw : api.currentGw with
      | none => simp [h1, h2, hgw]
      | some gwOpt => simp [h1, h2, hgw]
    · simp [h1, h2]

/-- Witness for C3 (amended): on `apiC3` the context manager opens and the
current-gameweek probe answers, so the run reports success, even though
its teams sync failed. -/
theorem C3_result_characterization_witness :
    (syncAllData st0 apiC3 true 0 6).2 = true :=
  (C3_result_characterization st0 apiC3 true 0 6).mpr
    (Or.inr ⟨rfl, by decide⟩)

set_option maxRecDepth 8000 in
/-- Claim C4, as stated, is false: `poolC4` offers enough candidates in
every position (2 GK, 5 DEF, 7 MID, 3 FWD) and its cheapest full squad
costs 8 + 20 + (9/2 · 2 + 15 · 3) + 27/2 = 95.5 ≤ 100, yet the greedy
builder spends 15.0 on four premium midfielders and fills only one of the
three forward slots. -/
theorem C4_counterexample :
    ((poolC4.filter (fun p => p.position == "GK")).length = 2 ∧
     (poolC4.filter (fun p => p.position == "DEF")).length = 5 ∧
     (poolC4.filter (fun p => p.position == "MID")).length = 7 ∧
     (poolC4.filter (fun p => p.position == "FWD")).length = 3 ∧
     (8 : ℚ) + 20 + 54 + 27/2 ≤ 100) ∧
    ((buildBudgetAwareSquad poolC4 100).filter
      (fun e => e.position == "FWD")).length = 1 := by
  with_unfolding_all decide

/-- Claim C4 (amended): for every pool and non-negative budget, the
squad's total cost never exceeds the budget, and each position contributes
at most its formation count (2 GK / 5 DEF / 5 MID / 3 FWD); exact counts
are not guaranteed. -/
theorem C4_budget_and_count_bounds (players : List Player) (budget : ℚ)
    (hb : 0 ≤ budget) :
    squadCost (buildBudgetAwareSquad players budget) ≤ budget ∧
    countPos "GK" (buildBudgetAwareSquad players budget) ≤ 2 ∧
    countPos "DEF" (buildBudgetAwareSquad players budget) ≤ 5 ∧
    countPos "MID" (buildBudgetAwareSquad players budget) ≤ 5 ∧
    countPos "FWD" (buildBudgetAwareSquad players budget) ≤ 3 := by
  have hbuild : buildBudgetAwareSquad players budget =
      (buildStep players (buildStep players (buildStep players (buildStep players
        ([], budget) "GK" 2 (min 6 (budget * 6 / 100)))
        "DEF" 5 (min 8 (budget * 8 / 100)))
        "MID" 5 (min 15 (budget * 15 / 100)))
        "FWD" 3 (min 15 (budget * 15 / 100))).1 := rfl
  set S1 := buildStep players ([], budget) "GK" 2 (min 6 (budget * 6 / 100)) with hS1
  set S2 := buildStep players S1 "DEF" 5 (min 8 (budget * 8 / 100)) with hS2
  set S3 := buildStep players S2 "MID" 5 (min 15 (budget * 15 / 100)) with hS3
  set S4 := buildStep players S3 "FWD" 3 (min 15 (budget * 15 / 100)) with hS4
  obtain ⟨ha1, hn1, e1, he1, hl1, hp1⟩ :=
    buildStep_spec players ([], budget) "GK" 2 (min 6 (budget * 6 / 100))
  obtain ⟨ha2, hn2, e2, he2, hl2, hp2⟩ :=
    buildStep_spec players S1 "DEF" 5 (min 8 (budget * 8 / 100))
  obtain ⟨ha3, hn3, e3, he3, hl3, hp3⟩ :=
    buildStep_spec players S2 "MID" 5 (min 15 (budget * 15 / 100))
  obtain ⟨ha4, hn4, e4, he4, hl4, hp4⟩ :=
    buildStep_spec players S3 "FWD" 3 (min 15 (budget * 15 / 100))
  rw [hbuild]
  have hsquad : S4.1 = (((([] : List SelectedPlayer) ++ e1) ++ e2) ++ e3) ++ e4 := by
    rw [he4, he3, he2, he1]
  have hnonneg4 : 0 ≤ S4.2 := hn4 (hn3 (hn2 (hn1 hb)))
  constructor
  · have hcost : S4.2 + squadCost S4.1 = budget := by
      rw [ha4, ha3, ha2, ha1]
      show ([], budget).2 + squadCost ([], budget).1 = budget
      simp [squadCost]
    linarith
  have hcounts : ∀ pos : String, countPos pos S4.1 =
      countPos pos e1 + countPos pos e2 + countPos pos e3 + countPos pos e4 := by
    intro pos
    rw [hsquad, countPos_append, countPos_append, countPos_append, countPos_append]
    show 0 + countPos pos e1 + countPos pos e2 + countPos pos e3 + countPos pos e4 = _
    omega
  refine ⟨?_, ?_, ?_, ?_⟩
  · rw [hcounts "GK",
      countPos_eq_zero "GK" "DEF" (by decide) e2 hp2,
      countPos_eq_zero "GK" "MID" (by decide) e3 hp3,
      countPos_eq_zero "GK" "FWD" (by decide) e4 hp4]
    simpa using le_trans (countPos_le_length "GK" e1) hl1
  · rw [hcounts "DEF",
      countPos_eq_zero "DEF" "GK" (by decide) e1 hp1,
      countPos_eq_zero "DEF" "MID" (by decide) e3 hp3,
      countPos_eq_zero "DEF" "FWD" (by decide) e4 hp4]
    simpa using le_trans (countPos_le_length "DEF" e2) hl2
  · rw [hcounts "MID",
      countPos_eq_zero "MID" "GK" (by decide) e1 hp1,
      countPos_eq_zero "MID" "DEF" (by decide) e2 hp2,
      countPos_eq_zero "MID" "FWD" (by decide) e4 hp4]
    simpa using le_trans (countPos_le_length "MID" e3) hl3
  · rw [hcounts "FWD",
      countPos_eq_zero "FWD" "GK" (by decide) e1 hp1,
      countPos_eq_zero "FWD" "DEF" (by decide) e2 hp2,
      countPos_eq_zero "FWD" "MID" (by decide) e3 hp3]
    simpa using le_trans (countPos_le_length "FWD" e4) hl4

/-- Witness for C4 (amended) on the empty pool with budget 0. -/
theorem C4_budget_and_count_bounds_witness :
    squadCost (buildBudgetAwareSquad [] 0) ≤ 0 ∧
    countPos "GK" (buildBudgetAwareSquad [] 0) ≤ 2 ∧
    countPos "DEF" (buildBudgetAwareSquad [] 0) ≤ 5 ∧
    countPos "MID" (buildBudgetAwareSquad [] 0) ≤ 5 ∧
    countPos "FWD" (buildBudgetAwareSquad [] 0) ≤ 3 :=
  C4_budget_and_count_bounds [] 0 (le_refl 0)

/-- Claim C5, as stated, is false only in its "average_difficulty is the
mean" part: the code reports the mean *rounded to two decimals*
(`round(total/len, 2)`, line 108).  Team 1's three-fixture report at
difficulties 1, 1, 2 carries average 1.33 ≠ 4/3. -/
theorem C5_counterexample :
    ((difficultyForTeam dbC5 1 3 teamOne).fixtures.map
      (fun e => e.difficulty)) = [1, 1, 2] ∧
    (difficultyForTeam dbC5 1 3 teamOne).average_difficulty = 133/100 ∧
    ¬ (difficultyForTeam dbC5 1 3 teamOne).average_difficulty =
      (1 + 1 + 2 : ℚ) / 3 := by
  with_unfolding_all decide

/-- Claim C5 (amended): a team's report lists exactly its unfinished
fixtures with gameweek in `[gw, gw + horizon - 1]`, ordered by gameweek
ascending, each carrying the difficulty of the team's home/away role; the
average is `3.0` when no fixture is found (never 0, no division by zero)
and otherwise the mean rounded to two decimals; the endpoint's output is a
permutation of the per-team reports computed at the derived current
gameweek. -/
theorem C5_report (db : List FixtureRec) (gw horizon : ℤ) (team : TeamRec) :
    (difficultyForTeam db gw horizon team).fixtures.Pairwise
      (fun a b => a.gameweek ≤ b.gameweek) ∧
    (∀ e, e ∈ (difficultyForTeam db gw horizon team).fixtures ↔
      ∃ f ∈ db, (f.team_h_id = team.id ∨ f.team_a_id = team.id) ∧
        gw ≤ f.event ∧ f.event ≤ gw + horizon - 1 ∧ f.finished = false ∧
        e = teamFixtureEntry team.id f) ∧
    ((difficultyForTeam db gw horizon team).fixtures = [] →
      (difficultyForTeam db gw horizon team).average_difficulty = 3) ∧
    ((difficultyForTeam db gw horizon team).fixtures ≠ [] →
      (difficultyForTeam db gw horizon team).average_difficulty =
        round2 (((((difficultyForTeam db gw horizon team).fixtures.map
          (fun e => e.difficulty)).sum : ℤ) : ℚ) /
          (difficultyForTeam db gw horizon team).fixtures.length)) ∧
    (∀ (teams : List TeamRec) (now : ℤ),
      getCurrentGameweek db now = some gw → gw ≠ 0 →
        (getAllFixtureDifficulty teams db now horizon).Perm
          (teams.map (difficultyForTeam db gw horizon))) := by
  refine ⟨difficultyForTeam_sorted db gw horizon team,
    difficultyForTeam_mem db gw horizon team,
    (difficultyForTeam_avg db gw horizon team).1,
    (difficultyForTeam_avg db gw horizon team).2, ?_⟩
  intro teams now hgw hz
  unfold getAllFixtureDifficulty
  rw [hgw]
  show (if gw = 0 then ([] : List FixtureDifficulty)
    else sortByAsc (fun x => x.average_difficulty)
      (teams.map (difficultyForTeam db gw horizon))).Perm _
  rw [if_neg hz]
  exact sortByAsc_perm _ _

/-- Witness for C5 (amended): the spec's own scenario — one upcoming
unfinished fixture at difficulty 4 over a 3-gameweek horizon reports
average exactly 4.0. -/
theorem C5_report_witness :
    (difficultyForTeam dbC5W 1 3 teamOne).average_difficulty =
      round2 (((((difficultyForTeam dbC5W 1 3 teamOne).fixtures.map
        (fun e => e.difficulty)).sum : ℤ) : ℚ) /
        (difficultyForTeam dbC5W 1 3 teamOne).fixtures.length) ∧
    (difficultyForTeam dbC5W 1 3 teamOne).average_difficulty = 4 :=
  ⟨(C5_report dbC5W 1 3 teamOne).2.2.2.1 (by with_unfolding_all decide),
   by with_unfolding_all decide⟩

/-- Claim C6, as stated, is false: with a finished and a live
(started-but-not-finished) fixture both in gameweek 1, the spec's
derivation gives 1 (the lowest gameweek with a live fixture) but the code
returns 2 — every control path of `get_current_gameweek` returns
`latest_finished.event + 1`. -/
theorem C6_counterexample :
    getCurrentGameweek dbC6 0 = some 2 ∧
    specCurrentGameweekC6 dbC6 = 1 ∧
    getCurrentGameweek dbC6 0 ≠ some (specCurrentGameweekC6 dbC6) := by
  with_unfolding_all decide

/-- Claim C6 (amended): for every fixture table and wall-clock instant,
the derived current gameweek is exactly one past the highest gameweek
carrying at least one finished fixture, and 1 when no fixture has
finished; the started-but-not-finished and kickoff-time probes never
change the result. -/
theorem C6_current_gameweek (db : List FixtureRec) (now : ℤ) :
    getCurrentGameweek db now =
      some (match ((db.filter (fun f => f.finished)).map
          (fun f => f.event)).max? with
        | some m => m + 1
        | none => 1) :=
  getCurrentGameweek_eq db now

/-- Witness for C6 (amended) at the concrete table `dbC6`. -/
theorem C6_current_gameweek_witness : getCurrentGameweek dbC6 0 = some 2 := by
  rw [C6_current_gameweek dbC6 0]
  with_unfolding_all decide

/-- Claim C7: running the forced sync twice against a fixed external data
set leaves the persisted store exactly as after one run, and the upserts
never create a duplicate record for an existing natural key (team `code`,
fixture `code`; `sync_players` and `sync_gameweek_stats` go through the
same `syncStore` loop keyed by player `id` and `(player, gameweek)`). -/
theorem C7_sync_idempotent (st : SyncState) (api : ApiData)
    (now now2 interval : ℤ)
    (ht : ∀ l, api.teams = some l → (l.map (fun d : TeamData => d.code)).Nodup)
    (hp : ∀ l, api.players = some l → (l.map (fun d : PlayerData => d.id)).Nodup)
    (hf : ∀ l, api.fixtures = some l → (l.map (fun d : FixtureData => d.code)).Nodup)
    (hg : ∀ l, api.gwLive = some l → (l.map (fun d : StatsData => d.player_id)).Nodup)
    (hts : (st.store.teams.map (fun r : TeamRec => r.code)).Nodup)
    (hfs : (st.store.fixtures.map (fun r : FixtureRec => r.code)).Nodup) :
    (syncAllData (syncAllData st api true now interval).1 api true now2 interval).1.store =
      (syncAllData st api true now interval).1.store ∧
    (((syncAllData st api true now interval).1.store.teams.map
      (fun r : TeamRec => r.code)).Nodup) ∧
    (((syncAllData st api true now interval).1.store.fixtures.map
      (fun r : FixtureRec => r.code)).Nodup) := by
  refine ⟨syncAllData_store_idem st api now now2 interval ht hp hf hg, ?_, ?_⟩
  · rw [(syncAllData_store_components st api now interval).1]
    by_cases he : api.enterOk
    · rw [if_pos he]
      exact syncTeams_nodup _ _ hts
    · rw [if_neg he]
      exact hts
  · rw [(syncAllData_store_components st api now interval).2]
    by_cases he : api.enterOk
    · rw [if_pos he]
      exact syncFixtures_nodup _ _ hfs
    · rw [if_neg he]
      exact hfs

/-- Witness for C7 on an empty store and an API carrying one team and one
fixture. -/
theorem C7_sync_idempotent_witness :
    (syncAllData (syncAllData st0 apiC7 true 0 6).1 apiC7 true 1 6).1.store =
      (syncAllData st0 apiC7 true 0 6).1.store ∧
    (((syncAllData st0 apiC7 true 0 6).1.store.teams.map
      (fun r : TeamRec => r.code)).Nodup) ∧
    (((syncAllData st0 apiC7 true 0 6).1.store.fixtures.map
      (fun r : FixtureRec => r.code)).Nodup) :=
  C7_sync_idempotent st0 apiC7 0 1 6
    (fun l hl => by injection (show some [tdW] = some l from hl) with h; subst h; decide)
    (fun l hl => by injection (show some ([] : List PlayerData) = some l from hl) with h; subst h; decide)
    (fun l hl => by injection (show some [fdW] = some l from hl) with h; subst h; decide)
    (fun l hl => by injection (show some ([] : List StatsData) = some l from hl) with h; subst h; decide)
    (by decide) (by decide)

/-- Claim C8, as stated, is false in its ordering part: transfers are
emitted in underperformer order (worst first by `form + points_per_game`),
not by decreasing expected gain.  Here the first transfer gains 0.2 and
the second 0.6. -/
theorem C8_counterexample :
    ((analyzeTransferOpportunities squadC8 playersC8 [] 0 2 1).transfers.map
      (fun t => t.expected_gain)) = [1/5, 3/5] ∧
    ((analyzeTransferOpportunities squadC8 playersC8 [] 0 2 1).transfers.map
      (fun t => t.priority)) = [1, 2] ∧
    ¬ ((1 : ℚ)/5 ≥ 3/5) := by
  with_unfolding_all decide

/-- Claim C8 (amended): the `priority` fields are the positions 1, 2, … in
list order (the order in which the underperformers were processed), and
every transfer's `expected_gain` equals
`predicted_points(in) - predicted_points(out)` over the requested horizon
(both predictions rounded to one decimal, as `_calculate_expected_gain`
computes them). -/
theorem C8_transfer_fields (squad : List SquadEntry) (allPlayers : List Player)
    (fixtures : List FixtureInfo) (budget : ℚ) (ft gw : ℕ) :
    ((analyzeTransferOpportunities squad allPlayers fixtures budget ft gw).transfers.map
        (fun t => t.priority) =
      List.range' 1
        (analyzeTransferOpportunities squad allPlayers fixtures budget ft gw).transfers.length) ∧
    (∀ t ∈ (analyzeTransferOpportunities squad allPlayers fixtures budget ft gw).transfers,
      t.expected_gain = calcExpectedGain t.outPlayer t.inPlayer gw) :=
  transferLoop_spec allPlayers fixtures budget gw
    ((identifyUnderperformers squad allPlayers).take ft) [] 0 rfl
    (by intro t ht; cases ht)

/-- Witness for C8 (amended) at the concrete two-transfer scenario. -/
theorem C8_transfer_fields_witness :
    ((analyzeTransferOpportunities squadC8 playersC8 [] 0 2 1).transfers.map
        (fun t => t.priority) =
      List.range' 1
        (analyzeTransferOpportunities squadC8 playersC8 [] 0 2 1).transfers.length) ∧
    (∀ t ∈ (analyzeTransferOpportunities squadC8 playersC8 [] 0 2 1).transfers,
      t.expected_gain = calcExpectedGain t.outPlayer t.inPlayer 1) :=
  C8_transfer_fields squadC8 playersC8 [] 0 2 1

/-- Claim C9, as stated, is false: the shortlist scorer (line 348) floors
the price at 4.0 while the builder scorer (line 446) floors it at 0.1, so
the two rankings disagree on players priced below 4.0 — here the shortlist
ranks `b` above `a` but the builder ranks `a` above `b`.  (Moreover the
shortlist method is shadowed by a second definition of the same name at
line 1657 that sorts by `total_points` instead.) -/
theorem C9_counterexample :
    valueScoreTop c9a < valueScoreTop c9b ∧
    valueScoreBuilder c9b < valueScoreBuilder c9a := by
  with_unfolding_all decide

/-- Claim C9 (amended): the two scorers share the formula
`points / price + 2 * form` and agree exactly on every player whose price
is at least 4.0 (where neither floor bites), so on that sub-pool the two
rankings coincide. -/
theorem C9_scores_agree_above_floor (p : Player) (h : 4 ≤ p.price) :
    valueScoreTop p = valueScoreBuilder p := by
  unfold valueScoreTop valueScoreBuilder
  rw [max_eq_left h, max_eq_left (le_trans (by norm_num) h)]

/-- Witness for C9 (amended) at a player priced 5.0. -/
theorem C9_scores_agree_above_floor_witness :
    valueScoreTop c9w = valueScoreBuilder c9w :=
  C9_scores_agree_above_floor c9w (by with_unfolding_all decide)

/-- Claim C10: `get_current_gameweek` is total and, whenever every
finished fixture carries a gameweek number of at least 1 (the data-model
invariant), it returns `some n` with `n ≥ 1` — never `None` despite its
`Optional[int]` annotation, on every fixture table including the empty
one. -/
theorem C10_total_and_at_least_one (db : List FixtureRec) (now : ℤ)
    (hev : ∀ f ∈ db, f.finished = true → 1 ≤ f.event) :
    ∃ n, getCurrentGameweek db now = some n ∧ 1 ≤ n := by
  rw [getCurrentGameweek_eq db now]
  cases hmax : ((db.filter (fun f => f.finished)).map (fun f => f.event)).max? with
  | none => exact ⟨1, rfl, le_refl 1⟩
  | some m =>
    refine ⟨m + 1, rfl, ?_⟩
    have hm : m ∈ (db.filter (fun f => f.finished)).map (fun f => f.event) :=
      List.max?_mem (fun _ _ => max_choice _ _) hmax
    obtain ⟨f, hf, hfe⟩ := List.mem_map.mp hm
    have hmem := List.mem_filter.mp hf
    have h1 : 1 ≤ f.event := hev f hmem.1 (by simpa using hmem.2)
    omega

/-- Witness for C10 on the empty fixture table. -/
theorem C10_total_witness :
    ∃ n, getCurrentGameweek [] 0 = some n ∧ 1 ≤ n :=
  C10_total_and_at_least_one [] 0 (fun f hf => absurd hf (List.not_mem_nil f))

end FantasyXI
